import Mathlib

/-!
# Generation orchestrator of the rpc generator (`tools/goctl/rpc/generator/gen.go`)

A shallow embedding of `Generator.Generate`.  Every collaborator the function
calls (path resolution, directory creation, the process executor, the protocol
parser, the stage generators, the console) is a parameter: a function on an
abstract world state `σ`.  The embedding threads that state through the calls
in source order and records every call, with the error it returned, in a trace.
-/

namespace generator

/-- The run context, `ZRpcContext` (gen.go lines 16-51). -/
structure ZRpcContext where
  Src : String
  ProtocCmd : String
  ProtoGenGrpcDir : String
  ProtoGenGoDir : String
  IsGooglePlugin : Bool
  GoOutput : String
  GrpcOutput : String
  Output : String
  Multiple : Bool
  Schema : String
  Ent : Bool
  ModuleName : String
  GoZeroVersion : String
  ToolVersion : String
  Port : Int
  MakeFile : Bool
  DockerFile : Bool
  deriving DecidableEq, Repr

/-- The receiver of `Generate`; only its `cfg` field is read there. -/
structure Generator (CF : Type) where
  cfg : CF

/-- The constant `os.ModePerm` of the Go standard library (`0777`). -/
def ModePerm : Nat := 0o777

/-- A call `Generate` makes to a collaborator, with the string and flag
arguments it passes. -/
inductive Call where
  | filepathAbs (path : String)
  | MkdirIfNotExist (dir : String)
  | Prepare
  | execRun (cmd : String) (dir : String)
  | ctxPrepare (dir : String)
  | Parse (src : String) (multiple : Bool)
  | mkdir
  | GenEtc
  | GenPb
  | GenConfig
  | GenSvc
  | GenLogic
  | GenServer
  | GenMain
  | GenCall
  | GenMakefile
  | GenDockerfile
  | FileExists (path : String) (result : Bool)
  | WriteFile (path : String) (content : String) (perm : Nat)
  | MarkDone
  deriving DecidableEq, Repr

/-- One entry of the trace: the call and the Go `error` it returned
(`none` is `nil`). -/
structure Event (ε : Type) where
  call : Call
  err : Option ε
  deriving DecidableEq, Repr

/-- The collaborators of `Generate`, as functions on the world state `σ`.
A Go `error` result is an `Option ε` (`none` is `nil`); a Go `(T, error)`
result is a pair. `PC`, `PR`, `DC`, `CF` are the types of the project context,
the parsed proto, the directory context and the generator configuration.
The stage generators `GenEtc` to `GenDockerfile` are methods of the receiver `g`;
they take the arguments `Generate` passes them. -/
structure Env (σ ε PC PR DC CF : Type) where
  /-- The function `filepath.Abs`. -/
  filepathAbs : String → σ → (String × Option ε) × σ
  /-- The function `filepath.Join`. -/
  filepathJoin : List String → String
  /-- The function `pathx.MkdirIfNotExist`. -/
  MkdirIfNotExist : String → σ → Option ε × σ
  /-- The function `pathx.FileExists`. -/
  FileExists : String → σ → Bool × σ
  /-- The function `os.WriteFile`. -/
  WriteFile : String → String → Nat → σ → Option ε × σ
  /-- The method `g.Prepare`. -/
  Prepare : Generator CF → σ → Option ε × σ
  /-- The function `execx.Run`; its first result is discarded by every caller here. -/
  execRun : String → String → σ → (String × Option ε) × σ
  /-- The function `ctx.Prepare`. -/
  ctxPrepare : String → σ → (PC × Option ε) × σ
  /-- The method `Parse` of `parser.NewDefaultProtoParser()`. -/
  Parse : String → Bool → σ → (PR × Option ε) × σ
  /-- The function `mkdir` building the directory context. -/
  mkdir : PC → PR → CF → ZRpcContext → σ → (DC × Option ε) × σ
  /-- The method `g.GenEtc`. -/
  GenEtc : DC → PR → CF → ZRpcContext → σ → Option ε × σ
  /-- The method `g.GenPb`. -/
  GenPb : DC → ZRpcContext → σ → Option ε × σ
  /-- The method `g.GenConfig`. -/
  GenConfig : DC → PR → CF → ZRpcContext → σ → Option ε × σ
  /-- The method `g.GenSvc`. -/
  GenSvc : DC → PR → CF → ZRpcContext → σ → Option ε × σ
  /-- The method `g.GenLogic`. -/
  GenLogic : DC → PR → CF → ZRpcContext → σ → Option ε × σ
  /-- The method `g.GenServer`. -/
  GenServer : DC → PR → CF → ZRpcContext → σ → Option ε × σ
  /-- The method `g.GenMain`. -/
  GenMain : DC → PR → CF → ZRpcContext → σ → Option ε × σ
  /-- The method `g.GenCall`. -/
  GenCall : DC → PR → CF → ZRpcContext → σ → Option ε × σ
  /-- The method `g.GenMakefile`. -/
  GenMakefile : DC → PR → CF → ZRpcContext → σ → Option ε × σ
  /-- The method `g.GenDockerfile`. -/
  GenDockerfile : DC → PR → CF → ZRpcContext → σ → Option ε × σ
  /-- The expression `dirCtx.GetServiceName().ToCamel()`. -/
  serviceNameCamel : DC → String
  /-- The constant `ent.PaginationTpl`. -/
  PaginationTpl : String
  /-- The call `console.NewColorConsole().MarkDone()`. -/
  MarkDone : σ → σ

/-- The result of running a computation: the value returned, the calls made
(oldest first) and the world state afterwards. -/
structure Outcome (σ ε α : Type) where
  val : α
  trace : List (Event ε)
  st : σ

/-- A computation that acts on the world state `σ` and logs its collaborator calls. -/
def Run (σ ε α : Type) : Type := σ → Outcome σ ε α

variable {σ ε PC PR DC CF : Type}

instance : Monad (Run σ ε) where
  pure a := fun s => ⟨a, [], s⟩
  bind m f := fun s =>
    ⟨(f (m s).val (m s).st).val, (m s).trace ++ (f (m s).val (m s).st).trace,
      (f (m s).val (m s).st).st⟩

/-- A collaborator call returning only an `error`. -/
def callErr (c : Call) (f : σ → Option ε × σ) : Run σ ε (Option ε) :=
  fun s => ⟨(f s).1, [⟨c, (f s).1⟩], (f s).2⟩

/-- A collaborator call returning a value and an `error`. -/
def callVal {α : Type} (c : Call) (f : σ → (α × Option ε) × σ) : Run σ ε (α × Option ε) :=
  fun s => ⟨(f s).1, [⟨c, (f s).1.2⟩], (f s).2⟩

/-- The call `pathx.FileExists(path)`, which returns a `bool`. -/
def callFileExists (env : Env σ ε PC PR DC CF) (path : String) : Run σ ε Bool :=
  fun s => ⟨(env.FileExists path s).1,
    [⟨Call.FileExists path (env.FileExists path s).1, none⟩], (env.FileExists path s).2⟩

/-- The call `console.NewColorConsole().MarkDone()`, which returns nothing. -/
def callMarkDone (env : Env σ ε PC PR DC CF) : Run σ ε Unit :=
  fun s => ⟨(), [⟨Call.MarkDone, none⟩], env.MarkDone s⟩

/-- The method `Generator.Generate` (gen.go lines 56-194), statement by statement.
`err` is the function-scope variable; `errV` and `errE` are the block-scoped
variables the two `_, err := execx.Run(...)` statements declare. -/
def Generate (env : Env σ ε PC PR DC CF) (g : Generator CF) (zctx : ZRpcContext) :
    Run σ ε (Option ε) := do
  let r ← callVal (.filepathAbs zctx.Output) (env.filepathAbs zctx.Output)
  let abs := r.1
  let mut err := r.2
  if err.isSome then
    return err
  err ← callErr (.MkdirIfNotExist abs) (env.MkdirIfNotExist abs)
  if err.isSome then
    return err
  err ← callErr .Prepare (env.Prepare g)
  if err.isSome then
    return err
  if zctx.ModuleName ≠ "" then
    let r ← callVal (.execRun ("go mod init " ++ zctx.ModuleName) abs)
      (env.execRun ("go mod init " ++ zctx.ModuleName) abs)
    err := r.2
    if err.isSome then
      return err
  if zctx.GoZeroVersion ≠ "" ∧ zctx.ToolVersion ≠ "" then
    let r ← callVal
      (.execRun ("goctls migrate --zero-version " ++ zctx.GoZeroVersion
        ++ " --tool-version " ++ zctx.ToolVersion) abs)
      (env.execRun ("goctls migrate --zero-version " ++ zctx.GoZeroVersion
        ++ " --tool-version " ++ zctx.ToolVersion) abs)
    let errV := r.2
    if errV.isSome then
      return errV
  let r ← callVal (.ctxPrepare abs) (env.ctxPrepare abs)
  let projectCtx := r.1
  err := r.2
  if err.isSome then
    return err
  let r ← callVal (.Parse zctx.Src zctx.Multiple) (env.Parse zctx.Src zctx.Multiple)
  let proto := r.1
  err := r.2
  if err.isSome then
    return err
  let r ← callVal .mkdir (env.mkdir projectCtx proto g.cfg zctx)
  let dirCtx := r.1
  err := r.2
  if err.isSome then
    return err
  err ← callErr .GenEtc (env.GenEtc dirCtx proto g.cfg zctx)
  if err.isSome then
    return err
  err ← callErr .GenPb (env.GenPb dirCtx zctx)
  if err.isSome then
    return err
  err ← callErr .GenConfig (env.GenConfig dirCtx proto g.cfg zctx)
  if err.isSome then
    return err
  err ← callErr .GenSvc (env.GenSvc dirCtx proto g.cfg zctx)
  if err.isSome then
    return err
  err ← callErr .GenLogic (env.GenLogic dirCtx proto g.cfg zctx)
  if err.isSome then
    return err
  err ← callErr .GenServer (env.GenServer dirCtx proto g.cfg zctx)
  if err.isSome then
    return err
  err ← callErr .GenMain (env.GenMain dirCtx proto g.cfg zctx)
  if err.isSome then
    return err
  err ← callErr .GenCall (env.GenCall dirCtx proto g.cfg zctx)
  if zctx.MakeFile then
    err ← callErr .GenMakefile (env.GenMakefile dirCtx proto g.cfg zctx)
    if err.isSome then
      return err
  if zctx.DockerFile then
    err ← callErr .GenDockerfile (env.GenDockerfile dirCtx proto g.cfg zctx)
    if err.isSome then
      return err
  -- generate ent
  if zctx.Ent then
    let r ← callVal
      (.execRun ("go run -mod=mod entgo.io/ent/cmd/ent init " ++ env.serviceNameCamel dirCtx) abs)
      (env.execRun ("go run -mod=mod entgo.io/ent/cmd/ent init " ++ env.serviceNameCamel dirCtx) abs)
    let mut errE := r.2
    if errE.isSome then
      return errE
    let r ← callVal (.execRun "go mod tidy" abs) (env.execRun "go mod tidy" abs)
    errE := r.2
    if errE.isSome then
      return errE
    let r ← callVal
      (.execRun "go run -mod=mod entgo.io/ent/cmd/ent generate ./ent/schema" abs)
      (env.execRun "go run -mod=mod entgo.io/ent/cmd/ent generate ./ent/schema" abs)
    errE := r.2
    if errE.isSome then
      return errE
    errE ← callErr (.MkdirIfNotExist (env.filepathJoin [abs, "ent", "template"]))
      (env.MkdirIfNotExist (env.filepathJoin [abs, "ent", "template"]))
    if errE.isSome then
      return errE
    let paginationTplPath := env.filepathJoin [abs, "ent", "template", "pagination.tmpl"]
    if !(← callFileExists env paginationTplPath) then
      errE ← callErr (.WriteFile paginationTplPath env.PaginationTpl ModePerm)
        (env.WriteFile paginationTplPath env.PaginationTpl ModePerm)
      if errE.isSome then
        return errE
    let r ← callVal (.execRun "make gen-rpc" abs) (env.execRun "make gen-rpc" abs)
    errE := r.2
    if errE.isSome then
      return errE
  callMarkDone env
  return err

/-- A run of `Generate` from world state `s`: the returned error, the trace of
collaborator calls and the final world state. -/
def runGenerate (env : Env σ ε PC PR DC CF) (g : Generator CF) (zctx : ZRpcContext) (s : σ) :
    Outcome σ ε (Option ε) :=
  Generate env g zctx s

/-! ## Continuations of `Generate`

The code of `Generate` from a given source line to its end, as a function of the
variables in scope there. `Generate_eq` shows that chaining them is `Generate`. -/

/-- Lines 191-193 of `Generate`. -/
def generateFrom191 (env : Env σ ε PC PR DC CF) (err : Option ε) : Run σ ε (Option ε) := do
  callMarkDone env
  return err

/-- Lines 154-193 of `Generate`. -/
def generateFrom154 (env : Env σ ε PC PR DC CF) (zctx : ZRpcContext) (abs : String) (dirCtx : DC)
    (err : Option ε) : Run σ ε (Option ε) := do
  if zctx.Ent then
    let r ← callVal
      (.execRun ("go run -mod=mod entgo.io/ent/cmd/ent init " ++ env.serviceNameCamel dirCtx) abs)
      (env.execRun ("go run -mod=mod entgo.io/ent/cmd/ent init " ++ env.serviceNameCamel dirCtx) abs)
    let mut errE := r.2
    if errE.isSome then
      return errE
    let r ← callVal (.execRun "go mod tidy" abs) (env.execRun "go mod tidy" abs)
    errE := r.2
    if errE.isSome then
      return errE
    let r ← callVal
      (.execRun "go run -mod=mod entgo.io/ent/cmd/ent generate ./ent/schema" abs)
      (env.execRun "go run -mod=mod entgo.io/ent/cmd/ent generate ./ent/schema" abs)
    errE := r.2
    if errE.isSome then
      return errE
    errE ← callErr (.MkdirIfNotExist (env.filepathJoin [abs, "ent", "template"]))
      (env.MkdirIfNotExist (env.filepathJoin [abs, "ent", "template"]))
    if errE.isSome then
      return errE
    let paginationTplPath := env.filepathJoin [abs, "ent", "template", "pagination.tmpl"]
    if !(← callFileExists env paginationTplPath) then
      errE ← callErr (.WriteFile paginationTplPath env.PaginationTpl ModePerm)
        (env.WriteFile paginationTplPath env.PaginationTpl ModePerm)
      if errE.isSome then
        return errE
    let r ← callVal (.execRun "make gen-rpc" abs) (env.execRun "make gen-rpc" abs)
    errE := r.2
    if errE.isSome then
      return errE
  generateFrom191 env err

/-- Lines 147-193 of `Generate`. -/
def generateFrom147 (env : Env σ ε PC PR DC CF) (g : Generator CF) (zctx : ZRpcContext)
    (abs : String) (proto : PR) (dirCtx : DC) (err0 : Option ε) : Run σ ε (Option ε) := do
  let mut err := err0
  if zctx.DockerFile then
    err ← callErr .GenDockerfile (env.GenDockerfile dirCtx proto g.cfg zctx)
    if err.isSome then
      return err
  generateFrom154 env zctx abs dirCtx err

/-- Lines 87-193 of `Generate`. -/
def generateFrom87 (env : Env σ ε PC PR DC CF) (g : Generator CF) (zctx : ZRpcContext)
    (abs : String) : Run σ ε (Option ε) := do
  let r ← callVal (.ctxPrepare abs) (env.ctxPrepare abs)
  let projectCtx := r.1
  let mut err := r.2
  if err.isSome then
    return err
  let r ← callVal (.Parse zctx.Src zctx.Multiple) (env.Parse zctx.Src zctx.Multiple)
  let proto := r.1
  err := r.2
  if err.isSome then
    return err
  let r ← callVal .mkdir (env.mkdir projectCtx proto g.cfg zctx)
  let dirCtx := r.1
  err := r.2
  if err.isSome then
    return err
  err ← callErr .GenEtc (env.GenEtc dirCtx proto g.cfg zctx)
  if err.isSome then
    return err
  err ← callErr .GenPb (env.GenPb dirCtx zctx)
  if err.isSome then
    return err
  err ← callErr .GenConfig (env.GenConfig dirCtx proto g.cfg zctx)
  if err.isSome then
    return err
  err ← callErr .GenSvc (env.GenSvc dirCtx proto g.cfg zctx)
  if err.isSome then
    return err
  err ← callErr .GenLogic (env.GenLogic dirCtx proto g.cfg zctx)
  if err.isSome then
    return err
  err ← callErr .GenServer (env.GenServer dirCtx proto g.cfg zctx)
  if err.isSome then
    return err
  err ← callErr .GenMain (env.GenMain dirCtx proto g.cfg zctx)
  if err.isSome then
    return err
  err ← callErr .GenCall (env.GenCall dirCtx proto g.cfg zctx)
  if zctx.MakeFile then
    err ← callErr .GenMakefile (env.GenMakefile dirCtx proto g.cfg zctx)
    if err.isSome then
      return err
  generateFrom147 env g zctx abs proto dirCtx err

/-- Lines 79-193 of `Generate`. -/
def generateFrom79 (env : Env σ ε PC PR DC CF) (g : Generator CF) (zctx : ZRpcContext)
    (abs : String) : Run σ ε (Option ε) := do
  if zctx.GoZeroVersion ≠ "" ∧ zctx.ToolVersion ≠ "" then
    let r ← callVal
      (.execRun ("goctls migrate --zero-version " ++ zctx.GoZeroVersion
        ++ " --tool-version " ++ zctx.ToolVersion) abs)
      (env.execRun ("goctls migrate --zero-version " ++ zctx.GoZeroVersion
        ++ " --tool-version " ++ zctx.ToolVersion) abs)
    let errV := r.2
    if errV.isSome then
      return errV
  generateFrom87 env g zctx abs

/-- Lines 57-193 of `Generate`, with the code from line 79 on as `generateFrom79`. -/
def generateFrom57 (env : Env σ ε PC PR DC CF) (g : Generator CF) (zctx : ZRpcContext) :
    Run σ ε (Option ε) := do
  let r ← callVal (.filepathAbs zctx.Output) (env.filepathAbs zctx.Output)
  let abs := r.1
  let mut err := r.2
  if err.isSome then
    return err
  err ← callErr (.MkdirIfNotExist abs) (env.MkdirIfNotExist abs)
  if err.isSome then
    return err
  err ← callErr .Prepare (env.Prepare g)
  if err.isSome then
    return err
  if zctx.ModuleName ≠ "" then
    let r ← callVal (.execRun ("go mod init " ++ zctx.ModuleName) abs)
      (env.execRun ("go mod init " ++ zctx.ModuleName) abs)
    err := r.2
    if err.isSome then
      return err
  generateFrom79 env g zctx abs

/-! ## The statement sequence of `Generate` -/

/-- How a statement of `Generate` treats the error its call returns. -/
inductive StepKind where
  /-- The pattern `err = f(...); if err != nil { return err }` on the function-scope `err`. -/
  | outerChecked
  /-- The same pattern on a block-scoped `err`. -/
  | innerChecked
  /-- The pattern `err = f(...)` on the function-scope `err`, with no check. -/
  | outerUnchecked
  /-- A call that returns no error. -/
  | silent
  deriving DecidableEq, Repr

/-- One statement: the call and how its error is treated. -/
structure Step where
  call : Call
  kind : StepKind
  deriving DecidableEq, Repr

/-- Whether a statement assigns the function-scope `err`. -/
def Step.isOuter (st : Step) : Bool :=
  st.kind = .outerChecked || st.kind = .outerUnchecked

/-- The relation `follows plan cur tr r`: running the statements of `plan` in order,
with `cur` the function-scope `err` on entry, makes exactly the calls of `tr`,
stops at the first checked failure and returns `r`. -/
def follows : List Step → Option ε → List (Event ε) → Option ε → Prop
  | [], cur, tr, r => tr = [] ∧ r = cur
  | _ :: _, _, [], _ => False
  | st :: rest, cur, ev :: tr, r =>
      ev.call = st.call ∧
      match st.kind with
      | .outerChecked => if ev.err.isSome then tr = [] ∧ r = ev.err else follows rest ev.err tr r
      | .innerChecked => if ev.err.isSome then tr = [] ∧ r = ev.err else follows rest cur tr r
      | .outerUnchecked => follows rest ev.err tr r
      | .silent => ev.err = none ∧ follows rest cur tr r

/-- Lines 57-77: path resolution, directory creation, `Prepare`, module initialization. -/
def plan57 (zctx : ZRpcContext) (abs : String) : List Step :=
  [⟨.filepathAbs zctx.Output, .outerChecked⟩,
   ⟨.MkdirIfNotExist abs, .outerChecked⟩,
   ⟨.Prepare, .outerChecked⟩]
  ++ (if zctx.ModuleName ≠ "" then
      [⟨.execRun ("go mod init " ++ zctx.ModuleName) abs, .outerChecked⟩] else [])

/-- Lines 79-85: version migration. -/
def plan79 (zctx : ZRpcContext) (abs : String) : List Step :=
  if zctx.GoZeroVersion ≠ "" ∧ zctx.ToolVersion ≠ "" then
    [⟨.execRun ("goctls migrate --zero-version " ++ zctx.GoZeroVersion
        ++ " --tool-version " ++ zctx.ToolVersion) abs, .innerChecked⟩]
  else []

/-- Lines 87-136: project context, parse, directory context, the stages etc to main. -/
def plan87 (zctx : ZRpcContext) (abs : String) : List Step :=
  [⟨.ctxPrepare abs, .outerChecked⟩,
   ⟨.Parse zctx.Src zctx.Multiple, .outerChecked⟩,
   ⟨.mkdir, .outerChecked⟩,
   ⟨.GenEtc, .outerChecked⟩,
   ⟨.GenPb, .outerChecked⟩,
   ⟨.GenConfig, .outerChecked⟩,
   ⟨.GenSvc, .outerChecked⟩,
   ⟨.GenLogic, .outerChecked⟩,
   ⟨.GenServer, .outerChecked⟩,
   ⟨.GenMain, .outerChecked⟩]

/-- Line 138: the call stage. -/
def plan138 : Step := ⟨.GenCall, .outerUnchecked⟩

/-- Lines 140-145: the Makefile stage. -/
def plan140 (zctx : ZRpcContext) : List Step :=
  if zctx.MakeFile then [⟨.GenMakefile, .outerChecked⟩] else []

/-- Lines 147-152: the Dockerfile stage. -/
def plan147 (zctx : ZRpcContext) : List Step :=
  if zctx.DockerFile then [⟨.GenDockerfile, .outerChecked⟩] else []

/-- Lines 155-189: the ent block; `tplExists` is the answer of `pathx.FileExists`. -/
def plan154 (env : Env σ ε PC PR DC CF) (zctx : ZRpcContext) (abs : String) (dirCtx : DC)
    (tplExists : Bool) : List Step :=
  if zctx.Ent then
    [⟨.execRun ("go run -mod=mod entgo.io/ent/cmd/ent init " ++ env.serviceNameCamel dirCtx) abs,
        .innerChecked⟩,
     ⟨.execRun "go mod tidy" abs, .innerChecked⟩,
     ⟨.execRun "go run -mod=mod entgo.io/ent/cmd/ent generate ./ent/schema" abs, .innerChecked⟩,
     ⟨.MkdirIfNotExist (env.filepathJoin [abs, "ent", "template"]), .innerChecked⟩,
     ⟨.FileExists (env.filepathJoin [abs, "ent", "template", "pagination.tmpl"]) tplExists,
        .silent⟩]
    ++ (if tplExists then [] else
      [⟨.WriteFile (env.filepathJoin [abs, "ent", "template", "pagination.tmpl"])
          env.PaginationTpl ModePerm, .innerChecked⟩])
    ++ [⟨.execRun "make gen-rpc" abs, .innerChecked⟩]
  else []

/-- Line 191: the completion signal. -/
def plan191 : List Step := [⟨.MarkDone, .silent⟩]

/-- The statements after the call stage (lines 140-191). -/
def planBack (env : Env σ ε PC PR DC CF) (zctx : ZRpcContext) (abs : String) (dirCtx : DC)
    (tplExists : Bool) : List Step :=
  plan140 zctx ++ (plan147 zctx ++ (plan154 env zctx abs dirCtx tplExists ++ plan191))

/-- The statements before the call stage (lines 57-136). -/
def planFront (zctx : ZRpcContext) (abs : String) : List Step :=
  plan57 zctx abs ++ (plan79 zctx abs ++ plan87 zctx abs)

/-- All statements of `Generate` that make a call, in source order. -/
def plan (env : Env σ ε PC PR DC CF) (zctx : ZRpcContext) (abs : String) (dirCtx : DC)
    (tplExists : Bool) : List Step :=
  planFront zctx abs ++ plan138 :: planBack env zctx abs dirCtx tplExists

/-! ## The directory context of a run -/

/-- The `dirCtx` of line 98 when the run is at line 87 in world `s`: what `mkdir`
returns for the project context of `ctx.Prepare` (line 87) and the proto of `Parse`
(line 93), each call made in the world the previous one left. -/
def dirCtxFrom87 (env : Env σ ε PC PR DC CF) (g : Generator CF) (zctx : ZRpcContext)
    (abs : String) (s : σ) : DC :=
  (env.mkdir (env.ctxPrepare abs s).1.1
    (env.Parse zctx.Src zctx.Multiple (env.ctxPrepare abs s).2).1.1 g.cfg zctx
    (env.Parse zctx.Src zctx.Multiple (env.ctxPrepare abs s).2).2).1.1

/-- The `dirCtx` of line 98 when the run is at line 79 in world `s`: the migration
command, if it runs, comes first. -/
def dirCtxFrom79 (env : Env σ ε PC PR DC CF) (g : Generator CF) (zctx : ZRpcContext)
    (abs : String) (s : σ) : DC :=
  dirCtxFrom87 env g zctx abs
    (if zctx.GoZeroVersion ≠ "" ∧ zctx.ToolVersion ≠ "" then
      (env.execRun ("goctls migrate --zero-version " ++ zctx.GoZeroVersion
        ++ " --tool-version " ++ zctx.ToolVersion) abs s).2
    else s)

/-- The directory context a run of `Generate` from world `s` builds at line 98,
`dirCtx, err := mkdir(projectCtx, proto, g.cfg, zctx)`: the calls of lines 57-93 are
made in source order, each in the world the previous one left, and `mkdir` gets the
project context and the proto those calls returned. It is the `dirCtx` every later
statement of the run uses. -/
def builtDirCtx (env : Env σ ε PC PR DC CF) (g : Generator CF) (zctx : ZRpcContext)
    (s : σ) : DC :=
  dirCtxFrom79 env g zctx (env.filepathAbs zctx.Output s).1.1
    (if zctx.ModuleName ≠ "" then
      (env.execRun ("go mod init " ++ zctx.ModuleName) (env.filepathAbs zctx.Output s).1.1
        (env.Prepare g (env.MkdirIfNotExist (env.filepathAbs zctx.Output s).1.1
          (env.filepathAbs zctx.Output s).2).2).2).2
    else
      (env.Prepare g (env.MkdirIfNotExist (env.filepathAbs zctx.Output s).1.1
        (env.filepathAbs zctx.Output s).2).2).2)

/-! ## Vocabulary of the claims -/

/-- The eight core stage generators, in the order the specification gives. -/
def coreStages : List Call :=
  [.GenEtc, .GenPb, .GenConfig, .GenSvc, .GenLogic, .GenServer, .GenMain, .GenCall]

/-- Whether a call is one of the eight core stage generators. -/
def isCoreStage : Call → Bool
  | .GenEtc | .GenPb | .GenConfig | .GenSvc | .GenLogic | .GenServer | .GenMain | .GenCall => true
  | _ => false

/-- The calls of a trace, in order. -/
def calls (tr : List (Event ε)) : List Call := tr.map Event.call

/-- The frame condition on the collaborators: none of them but `os.WriteFile` changes
what `obs` observes of the world (for instance the contents of one file). -/
structure Frame (env : Env σ ε PC PR DC CF) {β : Type} (obs : σ → β) : Prop where
  filepathAbs : ∀ p s, obs (env.filepathAbs p s).2 = obs s
  MkdirIfNotExist : ∀ d s, obs (env.MkdirIfNotExist d s).2 = obs s
  FileExists : ∀ p s, obs (env.FileExists p s).2 = obs s
  Prepare : ∀ g s, obs (env.Prepare g s).2 = obs s
  execRun : ∀ c d s, obs (env.execRun c d s).2 = obs s
  ctxPrepare : ∀ d s, obs (env.ctxPrepare d s).2 = obs s
  Parse : ∀ a b s, obs (env.Parse a b s).2 = obs s
  mkdir : ∀ pc pr cf z s, obs (env.mkdir pc pr cf z s).2 = obs s
  GenEtc : ∀ dc pr cf z s, obs (env.GenEtc dc pr cf z s).2 = obs s
  GenPb : ∀ dc z s, obs (env.GenPb dc z s).2 = obs s
  GenConfig : ∀ dc pr cf z s, obs (env.GenConfig dc pr cf z s).2 = obs s
  GenSvc : ∀ dc pr cf z s, obs (env.GenSvc dc pr cf z s).2 = obs s
  GenLogic : ∀ dc pr cf z s, obs (env.GenLogic dc pr cf z s).2 = obs s
  GenServer : ∀ dc pr cf z s, obs (env.GenServer dc pr cf z s).2 = obs s
  GenMain : ∀ dc pr cf z s, obs (env.GenMain dc pr cf z s).2 = obs s
  GenCall : ∀ dc pr cf z s, obs (env.GenCall dc pr cf z s).2 = obs s
  GenMakefile : ∀ dc pr cf z s, obs (env.GenMakefile dc pr cf z s).2 = obs s
  GenDockerfile : ∀ dc pr cf z s, obs (env.GenDockerfile dc pr cf z s).2 = obs s
  MarkDone : ∀ s, obs (env.MarkDone s) = obs s

/-! ## Concrete environments -/

/-- An environment over a trivial world: `fails` gives the error each call returns,
`tplExists` is the answer of `pathx.FileExists`, `filepath.Abs` prefixes `/abs/` and
`filepath.Join` joins with `/`. -/
def scriptEnv (fails : Call → Option String) (tplExists : Bool) :
    Env Unit String Unit Unit String Unit where
  filepathAbs := fun p s => (("/abs/" ++ p, fails (.filepathAbs p)), s)
  filepathJoin := fun l => "/".intercalate l
  MkdirIfNotExist := fun d s => (fails (.MkdirIfNotExist d), s)
  FileExists := fun _ s => (tplExists, s)
  WriteFile := fun p c m s => (fails (.WriteFile p c m), s)
  Prepare := fun _ s => (fails .Prepare, s)
  execRun := fun c d s => (("", fails (.execRun c d)), s)
  ctxPrepare := fun d s => (((), fails (.ctxPrepare d)), s)
  Parse := fun a b s => (((), fails (.Parse a b)), s)
  mkdir := fun _ _ _ _ s => (("Svc", fails .mkdir), s)
  GenEtc := fun _ _ _ _ s => (fails .GenEtc, s)
  GenPb := fun _ _ s => (fails .GenPb, s)
  GenConfig := fun _ _ _ _ s => (fails .GenConfig, s)
  GenSvc := fun _ _ _ _ s => (fails .GenSvc, s)
  GenLogic := fun _ _ _ _ s => (fails .GenLogic, s)
  GenServer := fun _ _ _ _ s => (fails .GenServer, s)
  GenMain := fun _ _ _ _ s => (fails .GenMain, s)
  GenCall := fun _ _ _ _ s => (fails .GenCall, s)
  GenMakefile := fun _ _ _ _ s => (fails .GenMakefile, s)
  GenDockerfile := fun _ _ _ _ s => (fails .GenDockerfile, s)
  serviceNameCamel := fun d => d
  PaginationTpl := "TPL"
  MarkDone := fun s => s

/-- A run context with every option off. -/
def zctxPlain : ZRpcContext :=
  { Src := "a.proto", ProtocCmd := "", ProtoGenGrpcDir := "", ProtoGenGoDir := "",
    IsGooglePlugin := false, GoOutput := "", GrpcOutput := "", Output := "out",
    Multiple := false, Schema := "", Ent := false, ModuleName := "", GoZeroVersion := "",
    ToolVersion := "", Port := 0, MakeFile := false, DockerFile := false }

/-- Every call succeeds. -/
def noFailure : Call → Option String := fun _ => none

/-- Only the call stage fails. -/
def callFails : Call → Option String := fun c => if c = .GenCall then some "call failed" else none

/-- Only the protocol parser fails. -/
def parseFails : Call → Option String :=
  fun c => if c = .Parse "a.proto" false then some "parse error" else none

/-- The plain run context with a module name. -/
def zctxModule : ZRpcContext := { zctxPlain with ModuleName := "example.com/svc" }

/-- The plain run context with both version strings. -/
def zctxVersions : ZRpcContext :=
  { zctxPlain with GoZeroVersion := "v1.6.0", ToolVersion := "v1.2.0" }

/-- The plain run context with only the tool version. -/
def zctxToolVersionOnly : ZRpcContext := { zctxPlain with ToolVersion := "v1.2.0" }

/-- The plain run context with the ent integration requested. -/
def zctxEnt : ZRpcContext := { zctxPlain with Ent := true }

/-- The plain run context with a Makefile requested. -/
def zctxMakeFile : ZRpcContext := { zctxPlain with MakeFile := true }

/-- An environment whose world counts the calls made so far. Every call succeeds.
`Parse` returns the source path as the proto, and `mkdir` returns as directory context
the proto it is given together with the world it is called in; the camel-case service
name is that proto followed by one `+` per earlier call. -/
def countingEnv : Env Nat String Unit String (String × Nat) Unit where
  filepathAbs := fun p s => (("/abs/" ++ p, none), s + 1)
  filepathJoin := fun l => "/".intercalate l
  MkdirIfNotExist := fun _ s => (none, s + 1)
  FileExists := fun _ s => (false, s + 1)
  WriteFile := fun _ _ _ s => (none, s + 1)
  Prepare := fun _ s => (none, s + 1)
  execRun := fun _ _ s => (("", none), s + 1)
  ctxPrepare := fun _ s => (((), none), s + 1)
  Parse := fun src _ s => ((src, none), s + 1)
  mkdir := fun _ proto _ _ s => (((proto, s), none), s + 1)
  GenEtc := fun _ _ _ _ s => (none, s + 1)
  GenPb := fun _ _ s => (none, s + 1)
  GenConfig := fun _ _ _ _ s => (none, s + 1)
  GenSvc := fun _ _ _ _ s => (none, s + 1)
  GenLogic := fun _ _ _ _ s => (none, s + 1)
  GenServer := fun _ _ _ _ s => (none, s + 1)
  GenMain := fun _ _ _ _ s => (none, s + 1)
  GenCall := fun _ _ _ _ s => (none, s + 1)
  GenMakefile := fun _ _ _ _ s => (none, s + 1)
  GenDockerfile := fun _ _ _ _ s => (none, s + 1)
  serviceNameCamel := fun d => d.1 ++ String.mk (List.replicate d.2 '+')
  PaginationTpl := "TPL"
  MarkDone := fun s => s + 1

/-- The path of the pagination template under the output directory `/abs/out`. -/
def tplPath : String := "/abs/out/ent/template/pagination.tmpl"

/-- An environment over a small file system: the world is the list of files written,
newest first, as pairs of path and contents. `os.WriteFile` adds a file,
`pathx.FileExists` looks the path up, every other call succeeds and changes nothing. -/
def fsEnv : Env (List (String × String)) String Unit Unit String Unit where
  filepathAbs := fun p s => (("/abs/" ++ p, none), s)
  filepathJoin := fun l => "/".intercalate l
  MkdirIfNotExist := fun _ s => (none, s)
  FileExists := fun p s => ((s.lookup p).isSome, s)
  WriteFile := fun p c _ s => (none, (p, c) :: s)
  Prepare := fun _ s => (none, s)
  execRun := fun _ _ s => (("", none), s)
  ctxPrepare := fun _ s => (((), none), s)
  Parse := fun _ _ s => (((), none), s)
  mkdir := fun _ _ _ _ s => (("Svc", none), s)
  GenEtc := fun _ _ _ _ s => (none, s)
  GenPb := fun _ _ s => (none, s)
  GenConfig := fun _ _ _ _ s => (none, s)
  GenSvc := fun _ _ _ _ s => (none, s)
  GenLogic := fun _ _ _ _ s => (none, s)
  GenServer := fun _ _ _ _ s => (none, s)
  GenMain := fun _ _ _ _ s => (none, s)
  GenCall := fun _ _ _ _ s => (none, s)
  GenMakefile := fun _ _ _ _ s => (none, s)
  GenDockerfile := fun _ _ _ _ s => (none, s)
  serviceNameCamel := fun d => d
  PaginationTpl := "TPL"
  MarkDone := fun s => s

/-- The contents of the pagination template in a world of `fsEnv`. -/
def tplContent (s : List (String × String)) : Option String := s.lookup tplPath

/-! ## Running the computations -/

/-- The continuations chain up to `Generate`. -/
theorem Generate_eq (env : Env σ ε PC PR DC CF) (g : Generator CF) (zctx : ZRpcContext) :
    Generate env g zctx = generateFrom57 env g zctx := rfl

theorem run_pure {α : Type} (a : α) (s : σ) :
    (pure a : Run σ ε α) s = ⟨a, [], s⟩ := rfl

theorem run_bind_val {α β : Type} (m : Run σ ε α) (f : α → Run σ ε β) (s : σ) :
    ((m >>= f) s).val = (f (m s).val (m s).st).val := rfl

theorem run_bind_trace {α β : Type} (m : Run σ ε α) (f : α → Run σ ε β) (s : σ) :
    ((m >>= f) s).trace = (m s).trace ++ (f (m s).val (m s).st).trace := rfl

theorem run_bind_st {α β : Type} (m : Run σ ε α) (f : α → Run σ ε β) (s : σ) :
    ((m >>= f) s).st = (f (m s).val (m s).st).st := rfl

theorem run_ite {α : Type} (c : Prop) [Decidable c] (m₁ m₂ : Run σ ε α) (s : σ) :
    (if c then m₁ else m₂) s = if c then m₁ s else m₂ s := by
  split <;> rfl

theorem callErr_run (c : Call) (f : σ → Option ε × σ) (s : σ) :
    callErr c f s = ⟨(f s).1, [⟨c, (f s).1⟩], (f s).2⟩ := rfl

theorem callVal_run {α : Type} (c : Call) (f : σ → (α × Option ε) × σ) (s : σ) :
    callVal c f s = ⟨(f s).1, [⟨c, (f s).1.2⟩], (f s).2⟩ := rfl

theorem callFileExists_run (env : Env σ ε PC PR DC CF) (path : String) (s : σ) :
    callFileExists env path s = ⟨(env.FileExists path s).1,
      [⟨Call.FileExists path (env.FileExists path s).1, none⟩], (env.FileExists path s).2⟩ := rfl

theorem callMarkDone_run (env : Env σ ε PC PR DC CF) (s : σ) :
    callMarkDone env s = ⟨(), [⟨Call.MarkDone, none⟩], env.MarkDone s⟩ := rfl

/-! ## Every run follows the statement sequence -/

theorem follows_cons_outerChecked {c : Call} {rest : List Step} {cur r : Option ε}
    {tr : List (Event ε)} (h : follows rest none tr r) :
    follows (⟨c, .outerChecked⟩ :: rest) cur (⟨c, none⟩ :: tr) r := by
  simpa [follows] using h

theorem follows_cons_innerChecked {c : Call} {rest : List Step} {cur r : Option ε}
    {tr : List (Event ε)} (h : follows rest cur tr r) :
    follows (⟨c, .innerChecked⟩ :: rest) cur (⟨c, none⟩ :: tr) r := by
  simpa [follows] using h

theorem follows_generateFrom191 (env : Env σ ε PC PR DC CF) (err : Option ε) (s : σ) :
    follows plan191 err (generateFrom191 env err s).trace (generateFrom191 env err s).val := by
  simp [generateFrom191, plan191, follows, run_bind_val, run_bind_trace, run_pure,
    callMarkDone_run]

theorem follows_generateFrom154 (env : Env σ ε PC PR DC CF) (zctx : ZRpcContext) (abs : String)
    (dirCtx : DC) (err : Option ε) (s : σ) :
    ∃ tplExists, follows (plan154 env zctx abs dirCtx tplExists ++ plan191) err
      (generateFrom154 env zctx abs dirCtx err s).trace
      (generateFrom154 env zctx abs dirCtx err s).val := by
  have hdone := follows_generateFrom191 env err
  by_cases hEnt : zctx.Ent = true
  · simp only [generateFrom154, plan154, hEnt, if_true]
    simp only [run_bind_val, run_bind_trace, run_ite, run_pure, callVal_run, callErr_run,
      callFileExists_run, apply_ite Outcome.val, apply_ite Outcome.trace]
    rcases h1 : env.execRun
      ("go run -mod=mod entgo.io/ent/cmd/ent init " ++ env.serviceNameCamel dirCtx) abs s
      with ⟨⟨o1, _ | e1⟩, s1⟩
    swap
    · exact ⟨false, by simp [follows]⟩
    simp only [Option.isSome_none, Bool.false_eq_true, if_false, List.nil_append]
    rcases h2 : env.execRun "go mod tidy" abs s1 with ⟨⟨o2, _ | e2⟩, s2⟩
    swap
    · exact ⟨false, by simp [follows]⟩
    simp only [Option.isSome_none, Bool.false_eq_true, if_false, List.nil_append]
    rcases h3 : env.execRun "go run -mod=mod entgo.io/ent/cmd/ent generate ./ent/schema" abs s2
      with ⟨⟨o3, _ | e3⟩, s3⟩
    swap
    · exact ⟨false, by simp [follows]⟩
    simp only [Option.isSome_none, Bool.false_eq_true, if_false, List.nil_append]
    rcases h4 : env.MkdirIfNotExist (env.filepathJoin [abs, "ent", "template"]) s3
      with ⟨_ | e4, s4⟩
    swap
    · exact ⟨false, by simp [follows]⟩
    simp only [Option.isSome_none, Bool.false_eq_true, if_false, List.nil_append]
    rcases h5 : env.FileExists (env.filepathJoin [abs, "ent", "template", "pagination.tmpl"]) s4
      with ⟨_ | _, s5⟩
    · simp only [Bool.not_false, if_true]
      rcases h6 : env.WriteFile (env.filepathJoin [abs, "ent", "template", "pagination.tmpl"])
        env.PaginationTpl ModePerm s5 with ⟨_ | e6, s6⟩
      swap
      · exact ⟨false, by simp [follows]⟩
      simp only [Option.isSome_none, Bool.false_eq_true, if_false, List.nil_append]
      rcases h7 : env.execRun "make gen-rpc" abs s6 with ⟨⟨o7, _ | e7⟩, s7⟩
      swap
      · exact ⟨false, by simp [follows]⟩
      exact ⟨false, by simpa [follows] using hdone s7⟩
    · simp only [Bool.not_true, Bool.false_eq_true, if_false]
      rcases h7 : env.execRun "make gen-rpc" abs s5 with ⟨⟨o7, _ | e7⟩, s7⟩
      swap
      · exact ⟨true, by simp [follows]⟩
      exact ⟨true, by simpa [follows] using hdone s7⟩
  · refine ⟨false, ?_⟩
    simp only [generateFrom154, plan154, hEnt]
    simp only [Bool.false_eq_true, if_false, List.nil_append, run_bind_val, run_bind_trace,
      run_ite, run_pure]
    exact hdone s

theorem follows_generateFrom147 (env : Env σ ε PC PR DC CF) (g : Generator CF)
    (zctx : ZRpcContext) (abs : String) (proto : PR) (dirCtx : DC) (err : Option ε) (s : σ) :
    ∃ tplExists,
      follows (plan147 zctx ++ (plan154 env zctx abs dirCtx tplExists ++ plan191)) err
        (generateFrom147 env g zctx abs proto dirCtx err s).trace
        (generateFrom147 env g zctx abs proto dirCtx err s).val := by
  by_cases hD : zctx.DockerFile = true
  · simp only [generateFrom147, plan147, hD, if_true]
    simp only [run_bind_val, run_bind_trace, run_ite, run_pure, callVal_run, callErr_run,
      apply_ite Outcome.val, apply_ite Outcome.trace]
    rcases h1 : env.GenDockerfile dirCtx proto g.cfg zctx s with ⟨_ | e1, s1⟩
    swap
    · exact ⟨false, by simp [follows]⟩
    obtain ⟨b, hb⟩ := follows_generateFrom154 env zctx abs dirCtx none s1
    exact ⟨b, by simpa [follows] using hb⟩
  · obtain ⟨b, hb⟩ := follows_generateFrom154 env zctx abs dirCtx err s
    refine ⟨b, ?_⟩
    simp only [generateFrom147, plan147, hD]
    simpa [run_bind_val, run_bind_trace, run_ite, run_pure] using hb

theorem follows_generateFrom87 (env : Env σ ε PC PR DC CF) (g : Generator CF)
    (zctx : ZRpcContext) (abs : String) (cur : Option ε) (s : σ) :
    ∃ tplExists,
      follows (plan87 zctx abs
          ++ plan138 :: planBack env zctx abs (dirCtxFrom87 env g zctx abs s) tplExists) cur
        (generateFrom87 env g zctx abs s).trace (generateFrom87 env g zctx abs s).val := by
  simp only [generateFrom87, plan87, plan138, planBack, dirCtxFrom87]
  simp only [run_bind_val, run_bind_trace, run_ite, run_pure, callVal_run, callErr_run,
    apply_ite Outcome.val, apply_ite Outcome.trace]
  rcases h1 : env.ctxPrepare abs s with ⟨⟨pc, _ | e1⟩, s1⟩
  swap
  · exact ⟨false, by simp [follows]⟩
  simp only [Option.isSome_none, Bool.false_eq_true, if_false, List.nil_append]
  rcases h2 : env.Parse zctx.Src zctx.Multiple s1 with ⟨⟨pr, _ | e2⟩, s2⟩
  swap
  · exact ⟨false, by simp [follows]⟩
  simp only [Option.isSome_none, Bool.false_eq_true, if_false, List.nil_append]
  rcases h3 : env.mkdir pc pr g.cfg zctx s2 with ⟨⟨dirCtx, _ | e3⟩, s3⟩
  swap
  · exact ⟨false, by simp [follows]⟩
  simp only [Option.isSome_none, Bool.false_eq_true, if_false, List.nil_append]
  rcases h4 : env.GenEtc dirCtx pr g.cfg zctx s3 with ⟨_ | e4, s4⟩
  swap
  · exact ⟨false, by simp [follows]⟩
  simp only [Option.isSome_none, Bool.false_eq_true, if_false, List.nil_append]
  rcases h5 : env.GenPb dirCtx zctx s4 with ⟨_ | e5, s5⟩
  swap
  · exact ⟨false, by simp [follows]⟩
  simp only [Option.isSome_none, Bool.false_eq_true, if_false, List.nil_append]
  rcases h6 : env.GenConfig dirCtx pr g.cfg zctx s5 with ⟨_ | e6, s6⟩
  swap
  · exact ⟨false, by simp [follows]⟩
  simp only [Option.isSome_none, Bool.false_eq_true, if_false, List.nil_append]
  rcases h7 : env.GenSvc dirCtx pr g.cfg zctx s6 with ⟨_ | e7, s7⟩
  swap
  · exact ⟨false, by simp [follows]⟩
  simp only [Option.isSome_none, Bool.false_eq_true, if_false, List.nil_append]
  rcases h8 : env.GenLogic dirCtx pr g.cfg zctx s7 with ⟨_ | e8, s8⟩
  swap
  · exact ⟨false, by simp [follows]⟩
  simp only [Option.isSome_none, Bool.false_eq_true, if_false, List.nil_append]
  rcases h9 : env.GenServer dirCtx pr g.cfg zctx s8 with ⟨_ | e9, s9⟩
  swap
  · exact ⟨false, by simp [follows]⟩
  simp only [Option.isSome_none, Bool.false_eq_true, if_false, List.nil_append]
  rcases h10 : env.GenMain dirCtx pr g.cfg zctx s9 with ⟨_ | e10, s10⟩
  swap
  · exact ⟨false, by simp [follows]⟩
  simp only [Option.isSome_none, Bool.false_eq_true, if_false, List.nil_append]
  rcases h11 : env.GenCall dirCtx pr g.cfg zctx s10 with ⟨c, s11⟩
  by_cases hM : zctx.MakeFile = true
  · simp only [plan140, hM, if_true]
    rcases h12 : env.GenMakefile dirCtx pr g.cfg zctx s11 with ⟨_ | e12, s12⟩
    swap
    · exact ⟨false, by simp [follows]⟩
    obtain ⟨b, hb⟩ := follows_generateFrom147 env g zctx abs pr dirCtx none s12
    exact ⟨b, by simpa [follows] using hb⟩
  · obtain ⟨b, hb⟩ := follows_generateFrom147 env g zctx abs pr dirCtx c s11
    refine ⟨b, ?_⟩
    simp only [plan140, hM]
    simpa [follows] using hb

theorem follows_generateFrom79 (env : Env σ ε PC PR DC CF) (g : Generator CF)
    (zctx : ZRpcContext) (abs : String) (cur : Option ε) (s : σ) :
    ∃ tplExists,
      follows (plan79 zctx abs ++ (plan87 zctx abs
          ++ plan138 :: planBack env zctx abs (dirCtxFrom79 env g zctx abs s) tplExists)) cur
        (generateFrom79 env g zctx abs s).trace (generateFrom79 env g zctx abs s).val := by
  by_cases hV : zctx.GoZeroVersion ≠ "" ∧ zctx.ToolVersion ≠ ""
  · simp only [generateFrom79, plan79, dirCtxFrom79, if_pos hV]
    simp only [run_bind_val, run_bind_trace, run_ite, run_pure, callVal_run, callErr_run,
      apply_ite Outcome.val, apply_ite Outcome.trace]
    rcases h1 : env.execRun ("goctls migrate --zero-version " ++ zctx.GoZeroVersion
        ++ " --tool-version " ++ zctx.ToolVersion) abs s with ⟨⟨o1, _ | e1⟩, s1⟩
    swap
    · exact ⟨false, by simp [follows]⟩
    obtain ⟨b, hb⟩ := follows_generateFrom87 env g zctx abs cur s1
    refine ⟨b, ?_⟩
    simp only [Option.isSome_none, Bool.false_eq_true, if_false, List.nil_append]
    exact follows_cons_innerChecked hb
  · obtain ⟨b, hb⟩ := follows_generateFrom87 env g zctx abs cur s
    refine ⟨b, ?_⟩
    simp only [generateFrom79, plan79, dirCtxFrom79, if_neg hV]
    simp only [run_bind_val, run_bind_trace, run_ite, run_pure, List.nil_append]
    exact hb

/-- Every run of `Generate` follows its statement sequence, with the directory
context the run itself builds: the calls are made in the order of `plan`, the run
stops at the first checked failure, and the value returned is that failure or the
function-scope `err` at the end. -/
theorem follows_Generate_built (env : Env σ ε PC PR DC CF) (g : Generator CF)
    (zctx : ZRpcContext) (s : σ) :
    ∃ tplExists,
      follows (plan env zctx (env.filepathAbs zctx.Output s).1.1 (builtDirCtx env g zctx s)
          tplExists) none
        (runGenerate env g zctx s).trace (runGenerate env g zctx s).val := by
  simp only [runGenerate, Generate_eq, generateFrom57, plan, planFront, plan57, builtDirCtx]
  simp only [run_bind_val, run_bind_trace, run_ite, run_pure, callVal_run, callErr_run,
    apply_ite Outcome.val, apply_ite Outcome.trace]
  rcases h1 : env.filepathAbs zctx.Output s with ⟨⟨abs, _ | e1⟩, s1⟩
  swap
  · exact ⟨false, by simp [follows]⟩
  simp only [Option.isSome_none, Bool.false_eq_true, if_false, List.nil_append]
  rcases h2 : env.MkdirIfNotExist abs s1 with ⟨_ | e2, s2⟩
  swap
  · exact ⟨false, by simp [follows]⟩
  simp only [Option.isSome_none, Bool.false_eq_true, if_false, List.nil_append]
  rcases h3 : env.Prepare g s2 with ⟨_ | e3, s3⟩
  swap
  · exact ⟨false, by simp [follows]⟩
  simp only [Option.isSome_none, Bool.false_eq_true, if_false, List.nil_append]
  by_cases hM : zctx.ModuleName ≠ ""
  · simp only [if_pos hM]
    rcases h4 : env.execRun ("go mod init " ++ zctx.ModuleName) abs s3 with ⟨⟨o4, _ | e4⟩, s4⟩
    swap
    · exact ⟨false, by simp [follows]⟩
    obtain ⟨b, hb⟩ := follows_generateFrom79 env g zctx abs none s4
    refine ⟨b, ?_⟩
    simp only [Option.isSome_none, Bool.false_eq_true, if_false, List.nil_append,
      List.append_assoc, List.cons_append]
    exact follows_cons_outerChecked (follows_cons_outerChecked (follows_cons_outerChecked
      (follows_cons_outerChecked hb)))
  · obtain ⟨b, hb⟩ := follows_generateFrom79 env g zctx abs none s3
    refine ⟨b, ?_⟩
    simp only [if_neg hM, List.nil_append, List.append_assoc, List.cons_append]
    exact follows_cons_outerChecked (follows_cons_outerChecked (follows_cons_outerChecked hb))

/-- Every run of `Generate` follows its statement sequence for some directory context
that `mkdir` returned. -/
theorem follows_Generate (env : Env σ ε PC PR DC CF) (g : Generator CF)
    (zctx : ZRpcContext) (s : σ) :
    ∃ dirCtx tplExists,
      (∃ pc pr s1, dirCtx = (env.mkdir pc pr g.cfg zctx s1).1.1) ∧
      follows (plan env zctx (env.filepathAbs zctx.Output s).1.1 dirCtx tplExists) none
        (runGenerate env g zctx s).trace (runGenerate env g zctx s).val := by
  obtain ⟨b, hb⟩ := follows_Generate_built env g zctx s
  exact ⟨builtDirCtx env g zctx s, b, ⟨_, _, _, rfl⟩, hb⟩

/-! ## Consequences of following a statement sequence -/

theorem calls_isPrefix_plan {P : List Step} {cur r : Option ε} {tr : List (Event ε)}
    (h : follows P cur tr r) : tr.map Event.call <+: P.map Step.call := by
  induction P generalizing cur tr with
  | nil =>
    simp only [follows] at h
    simp [h.1]
  | cons st rest ih =>
    cases tr with
    | nil => simp
    | cons ev tr =>
      simp only [follows] at h
      obtain ⟨hc, h⟩ := h
      simp only [List.map_cons, hc, List.prefix_cons_inj]
      cases hk : st.kind <;> simp only [hk] at h
      · split_ifs at h
        · simp [h.1]
        · exact ih h
      · split_ifs at h
        · simp [h.1]
        · exact ih h
      · exact ih h
      · exact ih h.2

theorem follows_call_mem {P : List Step} {cur r : Option ε} {tr : List (Event ε)}
    (h : follows P cur tr r) {ev : Event ε} (hev : ev ∈ tr) : ev.call ∈ P.map Step.call :=
  (calls_isPrefix_plan h).subset (List.mem_map_of_mem Event.call hev)

theorem follows_cons_inv {st : Step} {rest : List Step} {cur r : Option ε}
    {tr : List (Event ε)} (h : follows (st :: rest) cur tr r) :
    ∃ ev post, tr = ev :: post ∧ ev.call = st.call ∧
      post.map Event.call <+: rest.map Step.call := by
  cases tr with
  | nil => simp [follows] at h
  | cons ev post =>
    have hp := calls_isPrefix_plan h
    simp only [List.map_cons, List.cons_prefix_cons] at hp
    exact ⟨ev, post, rfl, hp.1, hp.2⟩

/-- A failing call other than an unchecked one ends the run, and its error is returned. -/
theorem follows_abort {P : List Step} {cur r : Option ε} {tr : List (Event ε)} {c0 : Call}
    (h : follows P cur tr r) (hP : ∀ st ∈ P, st.kind = .outerUnchecked → st.call = c0)
    {pre post : List (Event ε)} {ev : Event ε} {e : ε}
    (htr : tr = pre ++ ev :: post) (he : ev.err = some e) (hc : ev.call ≠ c0) :
    post = [] ∧ r = some e := by
  induction P generalizing cur tr pre with
  | nil =>
    simp only [follows] at h
    simp [h.1] at htr
  | cons st rest ih =>
    cases tr with
    | nil => simp at htr
    | cons ev1 tr1 =>
      simp only [follows] at h
      obtain ⟨hcall, h⟩ := h
      have hrest : ∀ st ∈ rest, st.kind = .outerUnchecked → st.call = c0 :=
        fun st hst => hP st (List.mem_cons_of_mem _ hst)
      cases pre with
      | nil =>
        simp only [List.nil_append, List.cons.injEq] at htr
        obtain ⟨rfl, rfl⟩ := htr
        cases hk : st.kind <;> simp only [hk] at h
        · simpa [he] using h
        · simpa [he] using h
        · exact absurd (hcall.trans (hP st (List.mem_cons_self _ _) hk)) hc
        · simp [he] at h
      | cons p pre1 =>
        simp only [List.cons_append, List.cons.injEq] at htr
        obtain ⟨rfl, htr1⟩ := htr
        cases hk : st.kind <;> simp only [hk] at h
        · split_ifs at h
          · simp [h.1] at htr1
          · exact ih h hrest htr1
        · split_ifs at h
          · simp [h.1] at htr1
          · exact ih h hrest htr1
        · exact ih h hrest htr1
        · exact ih h.2 hrest htr1

/-- The value returned is the function-scope `err` on entry or the error of a call. -/
theorem follows_result {P : List Step} {cur r : Option ε} {tr : List (Event ε)}
    (h : follows P cur tr r) : r = cur ∨ ∃ ev ∈ tr, ev.err = r := by
  induction P generalizing cur tr with
  | nil =>
    simp only [follows] at h
    exact Or.inl h.2
  | cons st rest ih =>
    cases tr with
    | nil => simp [follows] at h
    | cons ev tr =>
      simp only [follows] at h
      obtain ⟨-, h⟩ := h
      have lift : (∃ x ∈ tr, x.err = r) → ∃ x ∈ ev :: tr, x.err = r :=
        fun ⟨x, hx, hxr⟩ => ⟨x, List.mem_cons_of_mem _ hx, hxr⟩
      cases hk : st.kind <;> simp only [hk] at h
      · split_ifs at h
        · exact Or.inr ⟨ev, List.mem_cons_self _ _, h.2.symm⟩
        · rcases ih h with h1 | h1
          · exact Or.inr ⟨ev, List.mem_cons_self _ _, h1.symm⟩
          · exact Or.inr (lift h1)
      · split_ifs at h
        · exact Or.inr ⟨ev, List.mem_cons_self _ _, h.2.symm⟩
        · exact (ih h).imp id lift
      · rcases ih h with h1 | h1
        · exact Or.inr ⟨ev, List.mem_cons_self _ _, h1.symm⟩
        · exact Or.inr (lift h1)
      · exact (ih h.2).imp id lift

/-- When every call succeeds the whole sequence runs, and the value returned is
`nil` once a statement has assigned the function-scope `err`. -/
theorem follows_all_ok {P : List Step} {cur r : Option ε} {tr : List (Event ε)}
    (h : follows P cur tr r) (hok : ∀ ev ∈ tr, ev.err = none) :
    tr.map Event.call = P.map Step.call ∧ r = if P.any Step.isOuter then none else cur := by
  induction P generalizing cur tr with
  | nil =>
    simp only [follows] at h
    simp [h.1, h.2]
  | cons st rest ih =>
    cases tr with
    | nil => simp [follows] at h
    | cons ev tr =>
      simp only [follows] at h
      obtain ⟨hcall, h⟩ := h
      have hev : ev.err = none := hok ev (List.mem_cons_self _ _)
      have hok1 : ∀ x ∈ tr, x.err = none := fun x hx => hok x (List.mem_cons_of_mem _ hx)
      cases hk : st.kind <;> simp only [hk, hev] at h
      · obtain ⟨h1, h2⟩ := ih (by simpa using h) hok1
        refine ⟨by simp [hcall, h1], ?_⟩
        simp [h2, Step.isOuter, hk]
      · obtain ⟨h1, h2⟩ := ih (by simpa using h) hok1
        refine ⟨by simp [hcall, h1], ?_⟩
        simp [h2, Step.isOuter, hk]
      · obtain ⟨h1, h2⟩ := ih h hok1
        refine ⟨by simp [hcall, h1], ?_⟩
        simp [h2, Step.isOuter, hk]
      · obtain ⟨h1, h2⟩ := ih h.2 hok1
        refine ⟨by simp [hcall, h1], ?_⟩
        simp [h2, Step.isOuter, hk]

/-- When every call before an unchecked statement succeeds, the run reaches that
statement and goes on from it with the error it returned. -/
theorem follows_split {A B : List Step} {c0 : Call} {cur r : Option ε} {tr : List (Event ε)}
    (h : follows (A ++ ⟨c0, .outerUnchecked⟩ :: B) cur tr r)
    (hA : ∀ st ∈ A, st.call ≠ c0)
    (hok : ∀ ev ∈ tr, ev.call ≠ c0 → ev.err = none) :
    ∃ tr1 ev tr2, tr = tr1 ++ ev :: tr2 ∧ tr1.map Event.call = A.map Step.call ∧
      ev.call = c0 ∧ follows B ev.err tr2 r := by
  induction A generalizing cur tr with
  | nil =>
    cases tr with
    | nil => simp [follows] at h
    | cons ev tr =>
      simp only [List.nil_append, follows] at h
      exact ⟨[], ev, tr, rfl, rfl, h.1, h.2⟩
  | cons st rest ih =>
    cases tr with
    | nil => simp [follows] at h
    | cons ev tr =>
      simp only [List.cons_append, follows] at h
      obtain ⟨hcall, h⟩ := h
      have hne : ev.call ≠ c0 := hcall ▸ hA st (List.mem_cons_self _ _)
      have hev : ev.err = none := hok ev (List.mem_cons_self _ _) hne
      have hA1 : ∀ st ∈ rest, st.call ≠ c0 := fun x hx => hA x (List.mem_cons_of_mem _ hx)
      have hok1 : ∀ x ∈ tr, x.call ≠ c0 → x.err = none :=
        fun x hx => hok x (List.mem_cons_of_mem _ hx)
      have key : ∀ cur1, follows (rest ++ ⟨c0, .outerUnchecked⟩ :: B) cur1 tr r →
          ∃ tr1 ev1 tr2, ev :: tr = tr1 ++ ev1 :: tr2 ∧
            tr1.map Event.call = (st :: rest).map Step.call ∧ ev1.call = c0 ∧
            follows B ev1.err tr2 r := by
        intro cur1 h1
        obtain ⟨tr1, ev1, tr2, e1, e2, e3, e4⟩ := ih h1 hA1 hok1
        exact ⟨ev :: tr1, ev1, tr2, by simp [e1], by simp [e2, hcall], e3, e4⟩
      cases hk : st.kind <;> simp only [hk, hev] at h
      · exact key _ (by simpa using h)
      · exact key _ (by simpa using h)
      · exact key _ h
      · exact key _ h.2

/-- A run either gets through the statements `A` with every checked call succeeding
and goes on with the statements `B`, or ends inside `A` with a failing call. -/
theorem follows_reach {A B : List Step} {cur r : Option ε} {tr : List (Event ε)}
    (h : follows (A ++ B) cur tr r) :
    (∃ tr1 tr2 cur1, tr = tr1 ++ tr2 ∧ tr1.map Event.call = A.map Step.call ∧
        follows B cur1 tr2 r) ∨
    (∃ pre ev e, tr = pre ++ [ev] ∧ ev.err = some e ∧ r = some e ∧
        tr.map Event.call <+: A.map Step.call) := by
  induction A generalizing cur tr with
  | nil => exact Or.inl ⟨[], tr, cur, rfl, rfl, h⟩
  | cons st rest ih =>
    cases tr with
    | nil => simp [follows] at h
    | cons ev tr =>
      simp only [List.cons_append, follows] at h
      obtain ⟨hcall, h⟩ := h
      have key : ∀ cur1, follows (rest ++ B) cur1 tr r →
          (∃ tr1 tr2 cur2, ev :: tr = tr1 ++ tr2 ∧
              tr1.map Event.call = (st :: rest).map Step.call ∧ follows B cur2 tr2 r) ∨
          (∃ pre ev1 e, ev :: tr = pre ++ [ev1] ∧ ev1.err = some e ∧ r = some e ∧
              (ev :: tr).map Event.call <+: (st :: rest).map Step.call) := by
        intro cur1 h1
        rcases ih h1 with ⟨tr1, tr2, cur2, e1, e2, e3⟩ | ⟨pre, ev1, e, e1, e2, e3, e4⟩
        · exact Or.inl ⟨ev :: tr1, tr2, cur2, by simp [e1], by simp [e2, hcall], e3⟩
        · refine Or.inr ⟨ev :: pre, ev1, e, by simp [e1], e2, e3, ?_⟩
          simpa [hcall, List.prefix_cons_inj] using e4
      have stop : ev.err.isSome = true → tr = [] ∧ r = ev.err →
          (∃ tr1 tr2 cur2, ev :: tr = tr1 ++ tr2 ∧
              tr1.map Event.call = (st :: rest).map Step.call ∧ follows B cur2 tr2 r) ∨
          (∃ pre ev1 e, ev :: tr = pre ++ [ev1] ∧ ev1.err = some e ∧ r = some e ∧
              (ev :: tr).map Event.call <+: (st :: rest).map Step.call) := by
        intro hs ⟨h1, h2⟩
        obtain ⟨e, he⟩ := Option.isSome_iff_exists.1 hs
        refine Or.inr ⟨[], ev, e, by simp [h1], he, by rw [h2, he], ?_⟩
        simp [h1, hcall, List.prefix_cons_inj]
      cases hk : st.kind <;> simp only [hk] at h
      · split_ifs at h with hs
        · exact stop hs h
        · exact key _ h
      · split_ifs at h with hs
        · exact stop hs h
        · exact key _ h
      · exact key _ h
      · exact key _ h.2

/-! ## Lists cut at a given element -/

/-- In a list that starts with `A ++ [c]`, a prefix ending in `c` stays inside `A`
up to its last element when `c` does not occur later. -/
theorem mem_of_prefix_concat {α : Type} {l A B : List α} {c : α}
    (h : l ++ [c] <+: A ++ c :: B) (hB : c ∉ B) : ∀ x ∈ l, x ∈ A := by
  have h1 : l <+: A ++ c :: B := (List.prefix_append l [c]).trans h
  have h2 : A ++ [c] <+: A ++ c :: B := by
    simp [List.prefix_append_right_inj, List.prefix_cons_inj]
  rcases List.prefix_or_prefix_of_prefix h1 h2 with h3 | h3
  · rcases List.prefix_concat_iff.1 h3 with h4 | h4
    · exfalso
      rw [h4] at h
      have : [c] <+: B := by
        simpa [List.append_assoc, List.prefix_append_right_inj, List.prefix_cons_inj] using h
      exact hB (this.subset (List.mem_singleton_self c))
    · exact fun x hx => h4.subset hx
  · exfalso
    obtain ⟨t, rfl⟩ := h3
    have : t ++ [c] <+: B := by
      simpa [List.append_assoc, List.prefix_append_right_inj, List.prefix_cons_inj] using h
    exact hB (this.subset (by simp))

/-- A run that ends with a failing call inside `A ++ [c]` holds no successful `c`
unless `c` already occurs in `A`. -/
theorem not_mem_of_prefix_concat {α : Type} {l A : List α} {y c : α}
    (h : l ++ [y] <+: A ++ [c]) (hc : c ∈ l) : c ∈ A := by
  rcases List.prefix_concat_iff.1 h with h1 | h1
  · have := List.append_inj_left' h1 rfl
    exact this ▸ hc
  · exact h1.subset (List.mem_append_left _ hc)

/-- A prefix that holds `c` covers everything before the first `c`. -/
theorem prefix_of_mem {α : Type} {l A B : List α} {c : α}
    (h : l <+: A ++ c :: B) (hc : c ∈ l) (hA : c ∉ A) : A ++ [c] <+: l := by
  have h2 : A ++ [c] <+: A ++ c :: B := by
    simp [List.prefix_append_right_inj, List.prefix_cons_inj]
  rcases List.prefix_or_prefix_of_prefix h h2 with h3 | h3
  · rcases List.prefix_concat_iff.1 h3 with h4 | h4
    · rw [h4]
    · exact absurd (h4.subset hc) hA
  · exact h3

/-! ## The commands are pairwise different -/

theorem migrate_ne_modinit (a b m : String) :
    "goctls migrate --zero-version " ++ a ++ " --tool-version " ++ b ≠ "go mod init " ++ m := by
  intro h
  have := congrArg String.data h
  simp [String.data_append] at this

theorem entInit_ne_modinit (x m : String) :
    "go run -mod=mod entgo.io/ent/cmd/ent init " ++ x ≠ "go mod init " ++ m := by
  intro h
  have := congrArg String.data h
  simp [String.data_append] at this

theorem tidy_ne_modinit (m : String) : "go mod tidy" ≠ "go mod init " ++ m := by
  intro h
  have := congrArg String.data h
  simp [String.data_append] at this

theorem entGenerate_ne_modinit (m : String) :
    "go run -mod=mod entgo.io/ent/cmd/ent generate ./ent/schema" ≠ "go mod init " ++ m := by
  intro h
  have := congrArg String.data h
  simp [String.data_append] at this

theorem makeGenRpc_ne_modinit (m : String) : "make gen-rpc" ≠ "go mod init " ++ m := by
  intro h
  have := congrArg String.data h
  simp [String.data_append] at this

theorem modinit_ne_migrate (m a b : String) :
    "go mod init " ++ m ≠ "goctls migrate --zero-version " ++ a ++ " --tool-version " ++ b :=
  fun h => migrate_ne_modinit a b m h.symm

theorem entInit_ne_migrate (x a b : String) :
    "go run -mod=mod entgo.io/ent/cmd/ent init " ++ x
      ≠ "goctls migrate --zero-version " ++ a ++ " --tool-version " ++ b := by
  intro h
  have := congrArg String.data h
  simp [String.data_append] at this

theorem tidy_ne_migrate (a b : String) :
    "go mod tidy" ≠ "goctls migrate --zero-version " ++ a ++ " --tool-version " ++ b := by
  intro h
  have := congrArg String.data h
  simp [String.data_append] at this

theorem entGenerate_ne_migrate (a b : String) :
    "go run -mod=mod entgo.io/ent/cmd/ent generate ./ent/schema"
      ≠ "goctls migrate --zero-version " ++ a ++ " --tool-version " ++ b := by
  intro h
  have := congrArg String.data h
  simp [String.data_append] at this

theorem makeGenRpc_ne_migrate (a b : String) :
    "make gen-rpc" ≠ "goctls migrate --zero-version " ++ a ++ " --tool-version " ++ b := by
  intro h
  have := congrArg String.data h
  simp [String.data_append] at this

/-! ## Facts about the statement sequence -/

theorem forall_mem_plan (env : Env σ ε PC PR DC CF) (zctx : ZRpcContext) (abs : String)
    (dirCtx : DC) (b : Bool) (P : Step → Prop) :
    (∀ st ∈ plan env zctx abs dirCtx b, P st) ↔
      (∀ st ∈ plan57 zctx abs, P st) ∧ (∀ st ∈ plan79 zctx abs, P st) ∧
      (∀ st ∈ plan87 zctx abs, P st) ∧ P plan138 ∧ (∀ st ∈ plan140 zctx, P st) ∧
      (∀ st ∈ plan147 zctx, P st) ∧ (∀ st ∈ plan154 env zctx abs dirCtx b, P st) ∧
      (∀ st ∈ plan191, P st) := by
  simp only [plan, planFront, planBack, List.forall_mem_append, List.forall_mem_cons]
  tauto

theorem forall_mem_planBack (env : Env σ ε PC PR DC CF) (zctx : ZRpcContext) (abs : String)
    (dirCtx : DC) (b : Bool) (P : Step → Prop) :
    (∀ st ∈ planBack env zctx abs dirCtx b, P st) ↔
      (∀ st ∈ plan140 zctx, P st) ∧ (∀ st ∈ plan147 zctx, P st) ∧
      (∀ st ∈ plan154 env zctx abs dirCtx b, P st) ∧ (∀ st ∈ plan191, P st) := by
  simp only [planBack, List.forall_mem_append]

theorem forall_mem_planFront (zctx : ZRpcContext) (abs : String) (P : Step → Prop) :
    (∀ st ∈ planFront zctx abs, P st) ↔
      (∀ st ∈ plan57 zctx abs, P st) ∧ (∀ st ∈ plan79 zctx abs, P st) ∧
      (∀ st ∈ plan87 zctx abs, P st) := by
  simp only [planFront, List.forall_mem_append]

theorem before_ent_calls (zctx : ZRpcContext) (abs : String) (P : Call → Prop)
    (h57 : ∀ st ∈ plan57 zctx abs, P st.call) (h79 : ∀ st ∈ plan79 zctx abs, P st.call)
    (h87 : ∀ st ∈ plan87 zctx abs, P st.call) (h138 : P plan138.call)
    (h140 : ∀ st ∈ plan140 zctx, P st.call) (h147 : ∀ st ∈ plan147 zctx, P st.call) :
    ∀ c ∈ (planFront zctx abs ++ plan138 :: (plan140 zctx ++ plan147 zctx)).map Step.call,
      P c := by
  simp only [List.forall_mem_map, List.forall_mem_append, List.forall_mem_cons,
    forall_mem_planFront]
  exact ⟨⟨h57, h79, h87⟩, h138, h140, h147⟩

theorem plan_unchecked (env : Env σ ε PC PR DC CF) (zctx : ZRpcContext) (abs : String)
    (dirCtx : DC) (b : Bool) :
    ∀ st ∈ plan env zctx abs dirCtx b, st.kind = .outerUnchecked → st.call = .GenCall := by
  rw [forall_mem_plan]
  refine ⟨?_, ?_, ?_, ?_, ?_, ?_, ?_, ?_⟩
  · simp only [plan57]; split_ifs <;> simp
  · simp only [plan79]; split_ifs <;> simp
  · simp [plan87]
  · simp [plan138]
  · simp only [plan140]; split_ifs <;> simp
  · simp only [plan147]; split_ifs <;> simp
  · simp only [plan154]; split_ifs <;> simp
  · simp [plan191]

theorem coreStages_plan (env : Env σ ε PC PR DC CF) (zctx : ZRpcContext) (abs : String)
    (dirCtx : DC) (b : Bool) :
    ((plan env zctx abs dirCtx b).map Step.call).filter isCoreStage = coreStages := by
  simp only [plan, planFront, planBack, plan57, plan79, plan87, plan138, plan140, plan147,
    plan154, plan191]
  split_ifs <;> cases b <;> rfl

theorem planBack_any_isOuter (env : Env σ ε PC PR DC CF) (zctx : ZRpcContext) (abs : String)
    (dirCtx : DC) (b : Bool) :
    (planBack env zctx abs dirCtx b).any Step.isOuter = (zctx.MakeFile || zctx.DockerFile) := by
  simp only [planBack, plan140, plan147, plan154, plan191, List.any_append]
  cases zctx.MakeFile <;> cases zctx.DockerFile <;> cases zctx.Ent <;> cases b <;> rfl

theorem planBack_calls (env : Env σ ε PC PR DC CF) (zctx : ZRpcContext) (abs : String)
    (dirCtx : DC) (b : Bool) :
    ∀ st ∈ planBack env zctx abs dirCtx b, st.call ≠ .GenCall := by
  rw [forall_mem_planBack]
  refine ⟨?_, ?_, ?_, ?_⟩
  · simp only [plan140]; split_ifs <;> simp
  · simp only [plan147]; split_ifs <;> simp
  · simp only [plan154]; split_ifs <;> simp
  · simp [plan191]

theorem planFront_calls (zctx : ZRpcContext) (abs : String) :
    ∀ st ∈ planFront zctx abs, st.call ≠ .GenCall := by
  rw [forall_mem_planFront]
  refine ⟨?_, ?_, ?_⟩
  · simp only [plan57]; split_ifs <;> simp
  · simp only [plan79]; split_ifs <;> simp
  · simp [plan87]

theorem plan_eq_concat_done (env : Env σ ε PC PR DC CF) (zctx : ZRpcContext) (abs : String)
    (dirCtx : DC) (b : Bool) :
    plan env zctx abs dirCtx b
      = (planFront zctx abs ++ plan138 ::
          (plan140 zctx ++ (plan147 zctx ++ plan154 env zctx abs dirCtx b))) ++ plan191 := by
  simp [plan, planBack, List.append_assoc]

theorem markDone_not_mem_before (env : Env σ ε PC PR DC CF) (zctx : ZRpcContext)
    (abs : String) (dirCtx : DC) (b : Bool) :
    Call.MarkDone ∉ (planFront zctx abs ++ plan138 ::
      (plan140 zctx ++ (plan147 zctx ++ plan154 env zctx abs dirCtx b))).map Step.call := by
  have key : ∀ st ∈ planFront zctx abs ++ plan138 ::
      (plan140 zctx ++ (plan147 zctx ++ plan154 env zctx abs dirCtx b)),
      st.call ≠ Call.MarkDone := by
    simp only [List.forall_mem_append, List.forall_mem_cons, forall_mem_planFront]
    refine ⟨⟨?_, ?_, ?_⟩, ?_, ?_, ?_, ?_⟩
    · simp only [plan57]; split_ifs <;> simp
    · simp only [plan79]; split_ifs <;> simp
    · simp [plan87]
    · simp [plan138]
    · simp only [plan140]; split_ifs <;> simp
    · simp only [plan147]; split_ifs <;> simp
    · simp only [plan154]; split_ifs <;> simp
  intro hmem
  obtain ⟨st, hst, hstc⟩ := List.mem_map.1 hmem
  exact key st hst hstc

/-- The completion signal is never followed or preceded by a failing checked call. -/
theorem markDone_not_mem_of_abort {env : Env σ ε PC PR DC CF} {zctx : ZRpcContext}
    {abs : String} {dirCtx : DC} {b : Bool} {r : Option ε} {pre : List (Event ε)}
    {ev : Event ε} {e : ε}
    (h : follows (plan env zctx abs dirCtx b) none (pre ++ [ev]) r) (he : ev.err = some e) :
    ∀ x ∈ pre ++ [ev], x.call ≠ .MarkDone := by
  rw [plan_eq_concat_done] at h
  rcases follows_reach h with ⟨tr1, tr2, cur1, e1, -, e3⟩ | ⟨pre1, ev1, e1, -, -, -, e5⟩
  · exfalso
    rcases tr2 with _ | ⟨m, t⟩
    · simp [plan191, follows] at e3
    · simp only [plan191, follows] at e3
      obtain ⟨-, hm, ht, -⟩ := e3
      subst ht
      have := List.append_inj_right' (show pre ++ [ev] = tr1 ++ [m] from e1) rfl
      simp only [List.cons.injEq, and_true] at this
      rw [this, hm] at he
      exact Option.noConfusion he
  · intro x hx hxc
    exact markDone_not_mem_before env zctx abs dirCtx b
      (e5.subset (hxc ▸ List.mem_map_of_mem Event.call hx))

theorem plan_calls_around_parse (env : Env σ ε PC PR DC CF) (zctx : ZRpcContext) (abs : String)
    (dirCtx : DC) (b : Bool) :
    (plan env zctx abs dirCtx b).map Step.call
      = ((plan57 zctx abs ++ plan79 zctx abs).map Step.call ++ [.ctxPrepare abs])
        ++ .Parse zctx.Src zctx.Multiple ::
          ([.mkdir, .GenEtc, .GenPb, .GenConfig, .GenSvc, .GenLogic, .GenServer, .GenMain,
              .GenCall] ++ (planBack env zctx abs dirCtx b).map Step.call) := by
  simp [plan, planFront, plan87, plan138, List.append_assoc]

/-- No statement from the project-context preparation on runs a module initialization. -/
theorem plan87_on_ne_modinit (env : Env σ ε PC PR DC CF) (zctx : ZRpcContext) (abs : String)
    (dirCtx : DC) (b : Bool) (m dir : String) :
    ∀ st ∈ plan87 zctx abs ++ plan138 :: planBack env zctx abs dirCtx b,
      st.call ≠ .execRun ("go mod init " ++ m) dir := by
  simp only [List.forall_mem_append, List.forall_mem_cons, forall_mem_planBack]
  refine ⟨?_, ?_, ?_, ?_, ?_, ?_⟩
  · simp [plan87]
  · simp [plan138]
  · simp only [plan140]; split_ifs <;> simp
  · simp only [plan147]; split_ifs <;> simp
  · simp only [plan154]
    split_ifs <;> simp [entInit_ne_modinit, tidy_ne_modinit, entGenerate_ne_modinit,
      makeGenRpc_ne_modinit]
  · simp [plan191]

/-- No statement from the project-context preparation on runs a version migration. -/
theorem plan87_on_ne_migrate (env : Env σ ε PC PR DC CF) (zctx : ZRpcContext) (abs : String)
    (dirCtx : DC) (b : Bool) (v w dir : String) :
    ∀ st ∈ plan87 zctx abs ++ plan138 :: planBack env zctx abs dirCtx b,
      st.call ≠ .execRun ("goctls migrate --zero-version " ++ v ++ " --tool-version " ++ w)
        dir := by
  simp only [List.forall_mem_append, List.forall_mem_cons, forall_mem_planBack]
  refine ⟨?_, ?_, ?_, ?_, ?_, ?_⟩
  · simp [plan87]
  · simp [plan138]
  · simp only [plan140]; split_ifs <;> simp
  · simp only [plan147]; split_ifs <;> simp
  · simp only [plan154]
    split_ifs <;> simp [entInit_ne_migrate, tidy_ne_migrate, entGenerate_ne_migrate,
      makeGenRpc_ne_migrate]
  · simp [plan191]

theorem plan79_ne_modinit (zctx : ZRpcContext) (abs : String) (m dir : String) :
    ∀ st ∈ plan79 zctx abs, st.call ≠ .execRun ("go mod init " ++ m) dir := by
  simp only [plan79]
  split_ifs <;> simp [migrate_ne_modinit]

theorem plan_eq_modinit (env : Env σ ε PC PR DC CF) (zctx : ZRpcContext) (abs : String)
    (dirCtx : DC) (b : Bool) (hM : zctx.ModuleName ≠ "") :
    plan env zctx abs dirCtx b
      = [⟨.filepathAbs zctx.Output, .outerChecked⟩, ⟨.MkdirIfNotExist abs, .outerChecked⟩,
          ⟨.Prepare, .outerChecked⟩]
        ++ ⟨.execRun ("go mod init " ++ zctx.ModuleName) abs, .outerChecked⟩ ::
          (plan79 zctx abs ++ (plan87 zctx abs ++ plan138 :: planBack env zctx abs dirCtx b)) := by
  simp [plan, planFront, plan57, hM, List.append_assoc]

theorem plan_eq_migrate (env : Env σ ε PC PR DC CF) (zctx : ZRpcContext) (abs : String)
    (dirCtx : DC) (b : Bool) (hV : zctx.GoZeroVersion ≠ "" ∧ zctx.ToolVersion ≠ "") :
    plan env zctx abs dirCtx b
      = plan57 zctx abs
        ++ ⟨.execRun ("goctls migrate --zero-version " ++ zctx.GoZeroVersion
              ++ " --tool-version " ++ zctx.ToolVersion) abs, .innerChecked⟩ ::
          (plan87 zctx abs ++ plan138 :: planBack env zctx abs dirCtx b) := by
  simp only [plan, planFront, plan79, if_pos hV, List.append_assoc, List.singleton_append,
    List.cons_append, List.nil_append]

theorem plan57_calls (zctx : ZRpcContext) (abs : String) :
    (plan57 zctx abs).map Step.call
      = [.filepathAbs zctx.Output, .MkdirIfNotExist abs, .Prepare]
        ++ (if zctx.ModuleName ≠ "" then
            [.execRun ("go mod init " ++ zctx.ModuleName) abs] else []) := by
  simp only [plan57]
  split_ifs <;> rfl

theorem plan_calls_ent (env : Env σ ε PC PR DC CF) (zctx : ZRpcContext) (abs : String)
    (dirCtx : DC) (hEnt : zctx.Ent = true) :
    (plan env zctx abs dirCtx false).map Step.call
      = [.filepathAbs zctx.Output, .MkdirIfNotExist abs, .Prepare]
        ++ (if zctx.ModuleName ≠ "" then
            [.execRun ("go mod init " ++ zctx.ModuleName) abs] else [])
        ++ (if zctx.GoZeroVersion ≠ "" ∧ zctx.ToolVersion ≠ "" then
            [.execRun ("goctls migrate --zero-version " ++ zctx.GoZeroVersion
              ++ " --tool-version " ++ zctx.ToolVersion) abs] else [])
        ++ [.ctxPrepare abs, .Parse zctx.Src zctx.Multiple, .mkdir]
        ++ coreStages
        ++ (if zctx.MakeFile then [.GenMakefile] else [])
        ++ (if zctx.DockerFile then [.GenDockerfile] else [])
        ++ [.execRun ("go run -mod=mod entgo.io/ent/cmd/ent init "
              ++ env.serviceNameCamel dirCtx) abs,
            .execRun "go mod tidy" abs,
            .execRun "go run -mod=mod entgo.io/ent/cmd/ent generate ./ent/schema" abs,
            .MkdirIfNotExist (env.filepathJoin [abs, "ent", "template"]),
            .FileExists (env.filepathJoin [abs, "ent", "template", "pagination.tmpl"]) false,
            .WriteFile (env.filepathJoin [abs, "ent", "template", "pagination.tmpl"])
              env.PaginationTpl ModePerm,
            .execRun "make gen-rpc" abs,
            .MarkDone] := by
  simp only [plan, planFront, planBack, plan57, plan79, plan87, plan138, plan140, plan147,
    plan154, plan191, coreStages, hEnt, Bool.false_eq_true, if_false, if_true]
  split_ifs <;> rfl

theorem plan_calls_no_ent (env : Env σ ε PC PR DC CF) (zctx : ZRpcContext) (abs : String)
    (dirCtx : DC) (b : Bool) (hEnt : zctx.Ent = false) :
    (plan env zctx abs dirCtx b).map Step.call
      = [.filepathAbs zctx.Output, .MkdirIfNotExist abs, .Prepare]
        ++ (if zctx.ModuleName ≠ "" then
            [.execRun ("go mod init " ++ zctx.ModuleName) abs] else [])
        ++ (if zctx.GoZeroVersion ≠ "" ∧ zctx.ToolVersion ≠ "" then
            [.execRun ("goctls migrate --zero-version " ++ zctx.GoZeroVersion
              ++ " --tool-version " ++ zctx.ToolVersion) abs] else [])
        ++ [.ctxPrepare abs, .Parse zctx.Src zctx.Multiple, .mkdir]
        ++ coreStages
        ++ (if zctx.MakeFile then [.GenMakefile] else [])
        ++ (if zctx.DockerFile then [.GenDockerfile] else [])
        ++ [.MarkDone] := by
  simp only [plan, planFront, planBack, plan57, plan79, plan87, plan138, plan140, plan147,
    plan154, plan191, coreStages, hEnt, Bool.false_eq_true, if_false, if_true]
  split_ifs <;> rfl

theorem fileExists_true_mem_plan (env : Env σ ε PC PR DC CF) (zctx : ZRpcContext)
    (abs : String) (dirCtx : DC) (hEnt : zctx.Ent = true) :
    Call.FileExists (env.filepathJoin [abs, "ent", "template", "pagination.tmpl"]) true
      ∈ (plan env zctx abs dirCtx true).map Step.call := by
  simp [plan, planBack, plan154, hEnt]

theorem plan_write_only (env : Env σ ε PC PR DC CF) (zctx : ZRpcContext) (abs : String)
    (dirCtx : DC) (b : Bool) (path c : String) (m : Nat) :
    ∀ st ∈ plan env zctx abs dirCtx b, st.call = .WriteFile path c m →
      zctx.Ent = true ∧ b = false ∧
      path = env.filepathJoin [abs, "ent", "template", "pagination.tmpl"] ∧
      c = env.PaginationTpl ∧ m = ModePerm := by
  rw [forall_mem_plan]
  refine ⟨?_, ?_, ?_, ?_, ?_, ?_, ?_, ?_⟩
  · simp only [plan57]; split_ifs <;> simp
  · simp only [plan79]; split_ifs <;> simp
  · simp [plan87]
  · simp [plan138]
  · simp only [plan140]; split_ifs <;> simp
  · simp only [plan147]; split_ifs <;> simp
  · simp only [plan154]
    split_ifs with h1 h2
    · simp
    · simp only [Bool.not_eq_true] at h2
      simp [h1, h2]
      intro h3 h4 h5
      exact ⟨h3.symm, h4.symm, h5.symm⟩
    · simp
  · simp [plan191]

theorem plan_fileExists (env : Env σ ε PC PR DC CF) (zctx : ZRpcContext) (abs : String)
    (dirCtx : DC) (b : Bool) (path : String) (r : Bool) :
    ∀ st ∈ plan env zctx abs dirCtx b, st.call = .FileExists path r →
      zctx.Ent = true ∧ b = r := by
  rw [forall_mem_plan]
  refine ⟨?_, ?_, ?_, ?_, ?_, ?_, ?_, ?_⟩
  · simp only [plan57]; split_ifs <;> simp
  · simp only [plan79]; split_ifs <;> simp
  · simp [plan87]
  · simp [plan138]
  · simp only [plan140]; split_ifs <;> simp
  · simp only [plan147]; split_ifs <;> simp
  · simp only [plan154]
    split_ifs with h1 h2 <;> simp [h1]
  · simp [plan191]

/-- The statements up to the existence check of the ent block. -/
theorem plan_eq_around_write (env : Env σ ε PC PR DC CF) (zctx : ZRpcContext) (abs : String)
    (dirCtx : DC) (hEnt : zctx.Ent = true) :
    plan env zctx abs dirCtx false
      = ((planFront zctx abs ++ plan138 :: (plan140 zctx ++ plan147 zctx))
          ++ [⟨.execRun ("go run -mod=mod entgo.io/ent/cmd/ent init "
                ++ env.serviceNameCamel dirCtx) abs, .innerChecked⟩,
              ⟨.execRun "go mod tidy" abs, .innerChecked⟩,
              ⟨.execRun "go run -mod=mod entgo.io/ent/cmd/ent generate ./ent/schema" abs,
                .innerChecked⟩,
              ⟨.MkdirIfNotExist (env.filepathJoin [abs, "ent", "template"]), .innerChecked⟩,
              ⟨.FileExists (env.filepathJoin [abs, "ent", "template", "pagination.tmpl"])
                false, .silent⟩])
        ++ ⟨.WriteFile (env.filepathJoin [abs, "ent", "template", "pagination.tmpl"])
              env.PaginationTpl ModePerm, .innerChecked⟩ ::
          [⟨.execRun "make gen-rpc" abs, .innerChecked⟩, ⟨.MarkDone, .silent⟩] := by
  simp [plan, planBack, plan154, plan191, hEnt, List.append_assoc]

/-! ## What a run leaves unchanged -/

theorem frame_generateFrom191 {β : Type} {env : Env σ ε PC PR DC CF} {obs : σ → β}
    (hf : Frame env obs) (err : Option ε) (s : σ) :
    obs (generateFrom191 env err s).st = obs s := by
  simp only [generateFrom191, run_bind_st, run_pure, callMarkDone_run, hf.MarkDone]

theorem frame_generateFrom154 {β : Type} {env : Env σ ε PC PR DC CF} {obs : σ → β}
    (hf : Frame env obs) (zctx : ZRpcContext) (abs : String) (dirCtx : DC) (err : Option ε)
    (s : σ)
    (hex : ∀ s1, obs s1 = obs s → (env.FileExists
      (env.filepathJoin [abs, "ent", "template", "pagination.tmpl"]) s1).1 = true) :
    obs (generateFrom154 env zctx abs dirCtx err s).st = obs s := by
  simp only [generateFrom154, run_bind_st, run_bind_val, run_ite, run_pure, callVal_run,
    callErr_run, callFileExists_run, apply_ite Outcome.st, apply_ite obs,
    frame_generateFrom191 hf, hf.execRun, hf.MkdirIfNotExist, hf.FileExists, hex,
    Bool.not_true, Bool.false_eq_true, if_false, ite_self]

theorem frame_generateFrom147 {β : Type} {env : Env σ ε PC PR DC CF} {obs : σ → β}
    (hf : Frame env obs) (g : Generator CF) (zctx : ZRpcContext) (abs : String) (proto : PR)
    (dirCtx : DC) (err : Option ε) (s : σ)
    (hex : ∀ s1, obs s1 = obs s → (env.FileExists
      (env.filepathJoin [abs, "ent", "template", "pagination.tmpl"]) s1).1 = true) :
    obs (generateFrom147 env g zctx abs proto dirCtx err s).st = obs s := by
  have key : ∀ e1 s1, obs s1 = obs s →
      obs (generateFrom154 env zctx abs dirCtx e1 s1).st = obs s := fun e1 s1 h1 =>
    (frame_generateFrom154 hf zctx abs dirCtx e1 s1 (fun s2 h2 => hex s2 (h2.trans h1))).trans h1
  simp only [generateFrom147, run_bind_st, run_bind_val, run_ite, run_pure, callErr_run,
    apply_ite Outcome.st, apply_ite obs, hf.GenDockerfile, key, ite_self]

theorem frame_generateFrom87 {β : Type} {env : Env σ ε PC PR DC CF} {obs : σ → β}
    (hf : Frame env obs) (g : Generator CF) (zctx : ZRpcContext) (abs : String) (s : σ)
    (hex : ∀ s1, obs s1 = obs s → (env.FileExists
      (env.filepathJoin [abs, "ent", "template", "pagination.tmpl"]) s1).1 = true) :
    obs (generateFrom87 env g zctx abs s).st = obs s := by
  have key : ∀ pr dc e1 s1, obs s1 = obs s →
      obs (generateFrom147 env g zctx abs pr dc e1 s1).st = obs s := fun pr dc e1 s1 h1 =>
    (frame_generateFrom147 hf g zctx abs pr dc e1 s1
      (fun s2 h2 => hex s2 (h2.trans h1))).trans h1
  simp only [generateFrom87, run_bind_st, run_bind_val, run_ite, run_pure, callErr_run,
    callVal_run, apply_ite Outcome.st, apply_ite obs, hf.ctxPrepare, hf.Parse, hf.mkdir,
    hf.GenEtc, hf.GenPb, hf.GenConfig, hf.GenSvc, hf.GenLogic, hf.GenServer, hf.GenMain,
    hf.GenCall, hf.GenMakefile, key, ite_self]

theorem frame_generateFrom79 {β : Type} {env : Env σ ε PC PR DC CF} {obs : σ → β}
    (hf : Frame env obs) (g : Generator CF) (zctx : ZRpcContext) (abs : String) (s : σ)
    (hex : ∀ s1, obs s1 = obs s → (env.FileExists
      (env.filepathJoin [abs, "ent", "template", "pagination.tmpl"]) s1).1 = true) :
    obs (generateFrom79 env g zctx abs s).st = obs s := by
  have key : ∀ s1, obs s1 = obs s → obs (generateFrom87 env g zctx abs s1).st = obs s :=
    fun s1 h1 =>
      (frame_generateFrom87 hf g zctx abs s1 (fun s2 h2 => hex s2 (h2.trans h1))).trans h1
  simp only [generateFrom79, run_bind_st, run_bind_val, run_ite, run_pure, callVal_run,
    apply_ite Outcome.st, apply_ite obs, hf.execRun, key, ite_self]

/-- A run of `Generate` leaves unchanged whatever no collaborator but `os.WriteFile`
changes, when `pathx.FileExists` answers `true` for the pagination template in every
world that looks like the initial one. -/
theorem frame_Generate {β : Type} {env : Env σ ε PC PR DC CF} {obs : σ → β}
    (hf : Frame env obs) (g : Generator CF) (zctx : ZRpcContext) (s : σ)
    (hex : ∀ s1, obs s1 = obs s → (env.FileExists
      (env.filepathJoin [(env.filepathAbs zctx.Output s).1.1, "ent", "template",
        "pagination.tmpl"]) s1).1 = true) :
    obs (runGenerate env g zctx s).st = obs s := by
  have key : ∀ s1, obs s1 = obs s →
      obs (generateFrom79 env g zctx (env.filepathAbs zctx.Output s).1.1 s1).st = obs s :=
    fun s1 h1 =>
      (frame_generateFrom79 hf g zctx _ s1 (fun s2 h2 => hex s2 (h2.trans h1))).trans h1
  simp only [runGenerate, Generate_eq, generateFrom57, run_bind_st, run_bind_val, run_ite,
    run_pure, callVal_run, callErr_run, apply_ite Outcome.st, apply_ite obs, hf.filepathAbs,
    hf.MkdirIfNotExist, hf.Prepare, hf.execRun, key, ite_self]

/-- In `fsEnv` only `os.WriteFile` changes the contents of the pagination template. -/
theorem frame_fsEnv : Frame fsEnv tplContent where
  filepathAbs := fun _ _ => rfl
  MkdirIfNotExist := fun _ _ => rfl
  FileExists := fun _ _ => rfl
  Prepare := fun _ _ => rfl
  execRun := fun _ _ _ => rfl
  ctxPrepare := fun _ _ => rfl
  Parse := fun _ _ _ => rfl
  mkdir := fun _ _ _ _ _ => rfl
  GenEtc := fun _ _ _ _ _ => rfl
  GenPb := fun _ _ _ => rfl
  GenConfig := fun _ _ _ _ _ => rfl
  GenSvc := fun _ _ _ _ _ => rfl
  GenLogic := fun _ _ _ _ _ => rfl
  GenServer := fun _ _ _ _ _ => rfl
  GenMain := fun _ _ _ _ _ => rfl
  GenCall := fun _ _ _ _ _ => rfl
  GenMakefile := fun _ _ _ _ _ => rfl
  GenDockerfile := fun _ _ _ _ _ => rfl
  MarkDone := fun _ => rfl

/-! ## The completion signal -/

/-- The parts of the completion-signal contract that hold on every run: the signal
is emitted at most once, and exactly once when `Generate` returns no error. -/
theorem markDone_count (env : Env σ ε PC PR DC CF) (g : Generator CF) (zctx : ZRpcContext)
    (s : σ) :
    (calls (runGenerate env g zctx s).trace).count .MarkDone ≤ 1 ∧
    ((runGenerate env g zctx s).val = none →
      (calls (runGenerate env g zctx s).trace).count .MarkDone = 1) := by
  obtain ⟨d, b, -, h⟩ := follows_Generate env g zctx s
  generalize (env.filepathAbs zctx.Output s).1.1 = abs at h
  have h0 := List.count_eq_zero.2 (markDone_not_mem_before env zctx abs d b)
  constructor
  · refine ((calls_isPrefix_plan h).sublist.count_le _).trans ?_
    rw [plan_eq_concat_done, List.map_append, List.count_append, h0]
    simp [plan191]
  · intro hval
    rw [plan_eq_concat_done] at h
    rcases follows_reach h with ⟨tr1, tr2, cur1, e1, e2, e3⟩ | ⟨pre, ev, e, -, -, e3, -⟩
    · rcases tr2 with _ | ⟨m, t⟩
      · simp [plan191, follows] at e3
      · simp only [plan191, follows] at e3
        obtain ⟨hm, -, ht, -⟩ := e3
        subst ht
        rw [e1]
        unfold calls
        rw [List.map_append, List.count_append, e2, h0, List.map_cons, List.map_nil, hm]
        simp
    · rw [hval] at e3
      exact Option.noConfusion e3

/-! ## The claims -/

/-- C1 fails on the code: with `MakeFile` set, the call stage failing and every other
call succeeding, `Generate` returns no error although `GenCall` returned one. -/
theorem C1_call_error_swallowed :
    (⟨.GenCall, some "call failed"⟩ : Event String)
        ∈ (runGenerate (scriptEnv callFails false) ⟨()⟩ zctxMakeFile ()).trace ∧
    (∀ ev ∈ (runGenerate (scriptEnv callFails false) ⟨()⟩ zctxMakeFile ()).trace,
      ev.call ≠ .GenCall → ev.err = none) ∧
    (runGenerate (scriptEnv callFails false) ⟨()⟩ zctxMakeFile ()).val = none := by
  decide

/-- C2 fails on the code: with the call stage failing and no build file requested,
the completion signal is emitted although `Generate` returns the error. -/
theorem C2_done_signalled_on_failure :
    (⟨.MarkDone, none⟩ : Event String)
        ∈ (runGenerate (scriptEnv callFails false) ⟨()⟩ zctxPlain ()).trace ∧
    (runGenerate (scriptEnv callFails false) ⟨()⟩ zctxPlain ()).val = some "call failed" := by
  decide

/-- C3: the core stage generators `Generate` invokes are, in order, a prefix of
etc, pb, config, svc, logic, server, main, call; none is invoked twice; and a run
in which every call succeeds invokes exactly these eight, whatever the run context. -/
theorem C3_core_stage_order (env : Env σ ε PC PR DC CF) (g : Generator CF)
    (zctx : ZRpcContext) (s : σ) :
    (calls (runGenerate env g zctx s).trace).filter isCoreStage <+: coreStages ∧
    (∀ c ∈ coreStages, (calls (runGenerate env g zctx s).trace).count c ≤ 1) ∧
    ((∀ ev ∈ (runGenerate env g zctx s).trace, ev.err = none) →
      (calls (runGenerate env g zctx s).trace).filter isCoreStage = coreStages) := by
  obtain ⟨d, b, -, h⟩ := follows_Generate env g zctx s
  have hpre : (calls (runGenerate env g zctx s).trace).filter isCoreStage <+: coreStages := by
    have := (calls_isPrefix_plan h).filter isCoreStage
    rwa [coreStages_plan] at this
  refine ⟨hpre, ?_, ?_⟩
  · intro c hc
    have h1 : (calls (runGenerate env g zctx s).trace).count c
        = ((calls (runGenerate env g zctx s).trace).filter isCoreStage).count c := by
      rw [List.count_filter]
      revert hc
      simp only [coreStages, List.mem_cons, List.mem_singleton, List.not_mem_nil, or_false]
      rintro (rfl | rfl | rfl | rfl | rfl | rfl | rfl | rfl) <;> rfl
    rw [h1]
    refine (hpre.sublist.count_le c).trans ?_
    revert hc
    simp only [coreStages, List.mem_cons, List.mem_singleton, List.not_mem_nil, or_false]
    rintro (rfl | rfl | rfl | rfl | rfl | rfl | rfl | rfl) <;> decide
  · intro hok
    have := (follows_all_ok h hok).1
    unfold calls
    rw [this, coreStages_plan]

/-- A run in which every call succeeds invokes the eight core stages. -/
theorem C3_core_stage_order_witness :
    (calls (runGenerate (scriptEnv noFailure false) ⟨()⟩ zctxPlain ()).trace).filter isCoreStage
      = coreStages :=
  (C3_core_stage_order (scriptEnv noFailure false) ⟨()⟩ zctxPlain ()).2.2 (by decide)

/-- C4: fail-fast. A call other than the call stage that fails with `e` is the last
call of the run (so nothing later runs and the completion signal is not emitted) and
`Generate` returns `e` itself. When that call is the protocol parser, neither the
directory-context builder nor any stage generator has been invoked. -/
theorem C4_fail_fast (env : Env σ ε PC PR DC CF) (g : Generator CF) (zctx : ZRpcContext)
    (s : σ) (pre post : List (Event ε)) (ev : Event ε) (e : ε)
    (htr : (runGenerate env g zctx s).trace = pre ++ ev :: post)
    (he : ev.err = some e) (hc : ev.call ≠ .GenCall) :
    (runGenerate env g zctx s).val = some e ∧ post = [] ∧
    (∀ x ∈ (runGenerate env g zctx s).trace, x.call ≠ .MarkDone) ∧
    (ev.call = .Parse zctx.Src zctx.Multiple →
      ∀ x ∈ (runGenerate env g zctx s).trace, x.call ≠ .mkdir ∧ isCoreStage x.call = false ∧
        x.call ≠ .GenMakefile ∧ x.call ≠ .GenDockerfile) := by
  obtain ⟨d, b, -, h⟩ := follows_Generate env g zctx s
  generalize (env.filepathAbs zctx.Output s).1.1 = abs at h
  obtain ⟨hpost, hval⟩ := follows_abort h (plan_unchecked _ _ _ _ _) htr he hc
  subst hpost
  rw [htr] at h ⊢
  refine ⟨hval, rfl, markDone_not_mem_of_abort h he, ?_⟩
  intro hparse
  have hp := calls_isPrefix_plan h
  rw [plan_calls_around_parse, List.map_append, List.map_cons, List.map_nil, hparse] at hp
  have hB : Call.Parse zctx.Src zctx.Multiple ∉
      ([.mkdir, .GenEtc, .GenPb, .GenConfig, .GenSvc, .GenLogic, .GenServer, .GenMain,
          .GenCall] ++ (planBack env zctx abs d b).map Step.call) := by
    have key : ∀ st ∈ planBack env zctx abs d b,
        st.call ≠ Call.Parse zctx.Src zctx.Multiple := by
      rw [forall_mem_planBack]
      refine ⟨?_, ?_, ?_, ?_⟩
      · simp only [plan140]; split_ifs <;> simp
      · simp only [plan147]; split_ifs <;> simp
      · simp only [plan154]; split_ifs <;> simp
      · simp [plan191]
    simp only [List.mem_append, List.mem_map, not_or, not_exists, not_and]
    exact ⟨by simp, fun st hst hcall => key st hst hcall⟩
  have hA := mem_of_prefix_concat hp hB
  have key : ∀ c ∈ (plan57 zctx abs ++ plan79 zctx abs).map Step.call ++ [Call.ctxPrepare abs],
      c ≠ .mkdir ∧ isCoreStage c = false ∧ c ≠ .GenMakefile ∧ c ≠ .GenDockerfile := by
    simp only [List.map_append, List.forall_mem_append, List.forall_mem_map]
    refine ⟨⟨?_, ?_⟩, ?_⟩
    · simp only [plan57]; split_ifs <;> simp [isCoreStage]
    · simp only [plan79]; split_ifs <;> simp [isCoreStage]
    · simp [isCoreStage]
  intro x hx
  rcases List.mem_append.1 hx with hx | hx
  · exact key _ (hA _ (List.mem_map_of_mem Event.call hx))
  · rw [List.mem_singleton.1 hx, hparse]
    simp [isCoreStage]

/-- A run in which the protocol parser fails: the parse error is returned after five calls. -/
theorem C4_fail_fast_witness :
    (runGenerate (scriptEnv parseFails false) ⟨()⟩ zctxPlain ()).val = some "parse error" ∧
    ([] : List (Event String)) = [] ∧
    (∀ x ∈ (runGenerate (scriptEnv parseFails false) ⟨()⟩ zctxPlain ()).trace,
      x.call ≠ .MarkDone) ∧
    (Call.Parse "a.proto" false = .Parse zctxPlain.Src zctxPlain.Multiple →
      ∀ x ∈ (runGenerate (scriptEnv parseFails false) ⟨()⟩ zctxPlain ()).trace,
        x.call ≠ .mkdir ∧ isCoreStage x.call = false ∧
        x.call ≠ .GenMakefile ∧ x.call ≠ .GenDockerfile) :=
  C4_fail_fast (scriptEnv parseFails false) ⟨()⟩ zctxPlain ()
    [⟨.filepathAbs "out", none⟩, ⟨.MkdirIfNotExist "/abs/out", none⟩, ⟨.Prepare, none⟩,
      ⟨.ctxPrepare "/abs/out", none⟩] []
    ⟨.Parse "a.proto" false, some "parse error"⟩ "parse error" (by decide) rfl (by decide)

/-- C5: with an empty `ModuleName` no `go mod init` command is ever run. With a
non-empty one, once `Prepare` has succeeded (which needs the output directory to have
been resolved and created), `Generate` runs `go mod init <ModuleName>` exactly once,
in the resolved output directory, right after `Prepare` and so before any call of
the protocol parser. -/
theorem C5_module_init (env : Env σ ε PC PR DC CF) (g : Generator CF) (zctx : ZRpcContext)
    (s : σ) :
    (zctx.ModuleName = "" → ∀ ev ∈ (runGenerate env g zctx s).trace, ∀ m dir,
      ev.call ≠ .execRun ("go mod init " ++ m) dir) ∧
    (zctx.ModuleName ≠ "" → ⟨.Prepare, none⟩ ∈ (runGenerate env g zctx s).trace →
      ∃ pre ev post, (runGenerate env g zctx s).trace = pre ++ ev :: post ∧
        ev.call = .execRun ("go mod init " ++ zctx.ModuleName)
          (env.filepathAbs zctx.Output s).1.1 ∧
        calls pre = [.filepathAbs zctx.Output,
          .MkdirIfNotExist (env.filepathAbs zctx.Output s).1.1, .Prepare] ∧
        (∀ x ∈ pre ++ post, x.call ≠ .execRun ("go mod init " ++ zctx.ModuleName)
          (env.filepathAbs zctx.Output s).1.1) ∧
        (∀ x ∈ pre, ∀ src multiple, x.call ≠ .Parse src multiple)) := by
  obtain ⟨d, b, -, h⟩ := follows_Generate env g zctx s
  generalize (env.filepathAbs zctx.Output s).1.1 = abs at h ⊢
  constructor
  · intro hM ev hev m dir hc
    obtain ⟨st, hst, hstc⟩ := List.mem_map.1 (follows_call_mem h hev)
    have key : ∀ st ∈ plan env zctx abs d b, st.call ≠ .execRun ("go mod init " ++ m) dir := by
      have h57 : ∀ t ∈ plan57 zctx abs, t.call ≠ .execRun ("go mod init " ++ m) dir := by
        simp [plan57, hM]
      intro t ht
      simp only [plan, planFront, List.append_assoc] at ht
      rcases List.mem_append.1 ht with ht | ht
      · exact h57 t ht
      · rcases List.mem_append.1 ht with ht | ht
        · exact plan79_ne_modinit zctx abs m dir t ht
        · exact plan87_on_ne_modinit env zctx abs d b m dir t ht
    exact key st hst (hstc.trans hc)
  · intro hM hPrep
    rw [plan_eq_modinit env zctx abs d b hM] at h
    rcases follows_reach h with ⟨tr1, tr2, cur1, e1, e2, e3⟩ | ⟨pre, ev, e, e1, e2, -, e4⟩
    · obtain ⟨ev, post, rfl, hev, hpost⟩ := follows_cons_inv e3
      have hpre : ∀ x ∈ tr1, x.call ∈ [Call.filepathAbs zctx.Output,
          Call.MkdirIfNotExist abs, Call.Prepare] := by
        intro x hx
        have := List.mem_map_of_mem Event.call hx
        rw [e2] at this
        simpa using this
      refine ⟨tr1, ev, post, e1, hev, e2, ?_, ?_⟩
      · intro x hx hc
        rcases List.mem_append.1 hx with hx | hx
        · have := hpre x hx
          rw [hc] at this
          simp at this
        · have hx1 : x.call ∈ (plan79 zctx abs
              ++ (plan87 zctx abs ++ plan138 :: planBack env zctx abs d b)).map Step.call :=
            hpost.subset (List.mem_map_of_mem Event.call hx)
          obtain ⟨st, hst, hstc⟩ := List.mem_map.1 hx1
          rcases List.mem_append.1 hst with hst | hst
          · exact plan79_ne_modinit zctx abs _ _ st hst (hstc.trans hc)
          · exact plan87_on_ne_modinit env zctx abs d b _ _ st hst (hstc.trans hc)
      · intro x hx src multiple hc
        have := hpre x hx
        rw [hc] at this
        simp at this
    · exfalso
      rw [e1] at hPrep e4
      have hin : (⟨.Prepare, none⟩ : Event ε) ∈ pre := by
        rcases List.mem_append.1 hPrep with hx | hx
        · exact hx
        · rw [List.mem_singleton] at hx
          rw [← hx] at e2
          exact Option.noConfusion e2
      have h4 : pre.map Event.call ++ [ev.call]
          <+: [Call.filepathAbs zctx.Output, Call.MkdirIfNotExist abs] ++ [Call.Prepare] := by
        simpa using e4
      have := not_mem_of_prefix_concat h4 (List.mem_map_of_mem Event.call hin)
      simp at this

/-- A run without a module name and a run with `example.com/svc`. -/
theorem C5_module_init_witness :
    (∀ ev ∈ (runGenerate (scriptEnv noFailure false) ⟨()⟩ zctxPlain ()).trace, ∀ m dir,
      ev.call ≠ .execRun ("go mod init " ++ m) dir) ∧
    ∃ pre ev post, (runGenerate (scriptEnv noFailure false) ⟨()⟩ zctxModule ()).trace
        = pre ++ ev :: post ∧
      ev.call = .execRun ("go mod init " ++ zctxModule.ModuleName)
        ((scriptEnv noFailure false).filepathAbs zctxModule.Output ()).1.1 ∧
      calls pre = [.filepathAbs zctxModule.Output,
        .MkdirIfNotExist ((scriptEnv noFailure false).filepathAbs zctxModule.Output ()).1.1,
        .Prepare] ∧
      (∀ x ∈ pre ++ post, x.call ≠ .execRun ("go mod init " ++ zctxModule.ModuleName)
        ((scriptEnv noFailure false).filepathAbs zctxModule.Output ()).1.1) ∧
      (∀ x ∈ pre, ∀ src multiple, x.call ≠ .Parse src multiple) :=
  ⟨(C5_module_init (scriptEnv noFailure false) ⟨()⟩ zctxPlain ()).1 rfl,
    (C5_module_init (scriptEnv noFailure false) ⟨()⟩ zctxModule ()).2 (by decide) (by decide)⟩

/-- C6: the version migration runs only when both version strings are set. When one
of them is empty no `goctls migrate` command is ever run, and `Generate` raises no
error of its own: any error it returns was returned by a call. When both are set and
the earlier steps succeed, `Generate` runs the migration command built from both
strings exactly once, in the resolved output directory, before any call of the
protocol parser. -/
theorem C6_version_migration (env : Env σ ε PC PR DC CF) (g : Generator CF)
    (zctx : ZRpcContext) (s : σ) :
    ((zctx.GoZeroVersion = "" ∨ zctx.ToolVersion = "") →
      ∀ ev ∈ (runGenerate env g zctx s).trace, ∀ v w dir,
        ev.call ≠ .execRun ("goctls migrate --zero-version " ++ v ++ " --tool-version " ++ w)
          dir) ∧
    (∀ e, (runGenerate env g zctx s).val = some e →
      ∃ ev ∈ (runGenerate env g zctx s).trace, ev.err = some e) ∧
    (zctx.GoZeroVersion ≠ "" → zctx.ToolVersion ≠ "" →
      ⟨.Prepare, none⟩ ∈ (runGenerate env g zctx s).trace →
      (zctx.ModuleName ≠ "" →
        ⟨.execRun ("go mod init " ++ zctx.ModuleName) (env.filepathAbs zctx.Output s).1.1,
          none⟩ ∈ (runGenerate env g zctx s).trace) →
      ∃ pre ev post, (runGenerate env g zctx s).trace = pre ++ ev :: post ∧
        ev.call = .execRun ("goctls migrate --zero-version " ++ zctx.GoZeroVersion
          ++ " --tool-version " ++ zctx.ToolVersion) (env.filepathAbs zctx.Output s).1.1 ∧
        calls pre = [.filepathAbs zctx.Output,
            .MkdirIfNotExist (env.filepathAbs zctx.Output s).1.1, .Prepare]
          ++ (if zctx.ModuleName ≠ "" then
              [.execRun ("go mod init " ++ zctx.ModuleName)
                (env.filepathAbs zctx.Output s).1.1] else []) ∧
        (∀ x ∈ pre ++ post, x.call ≠ .execRun ("goctls migrate --zero-version "
          ++ zctx.GoZeroVersion ++ " --tool-version " ++ zctx.ToolVersion)
          (env.filepathAbs zctx.Output s).1.1) ∧
        (∀ x ∈ pre, ∀ src multiple, x.call ≠ .Parse src multiple)) := by
  obtain ⟨d, b, -, h⟩ := follows_Generate env g zctx s
  generalize (env.filepathAbs zctx.Output s).1.1 = abs at h ⊢
  have h57 : ∀ (v w dir : String), ∀ t ∈ plan57 zctx abs,
      t.call ≠ .execRun ("goctls migrate --zero-version " ++ v ++ " --tool-version " ++ w)
        dir := by
    intro v w dir
    simp only [plan57]
    split_ifs <;> simp [modinit_ne_migrate]
  refine ⟨?_, ?_, ?_⟩
  · intro hV ev hev v w dir hc
    obtain ⟨st, hst, hstc⟩ := List.mem_map.1 (follows_call_mem h hev)
    have hV1 : ¬(zctx.GoZeroVersion ≠ "" ∧ zctx.ToolVersion ≠ "") := by
      rintro ⟨h1, h2⟩
      rcases hV with hV | hV
      · exact h1 hV
      · exact h2 hV
    simp only [plan, planFront, plan79, if_neg hV1, List.nil_append] at hst
    rcases List.mem_append.1 hst with hst | hst
    · rcases List.mem_append.1 hst with hst | hst
      · exact h57 v w dir st hst (hstc.trans hc)
      · exact plan87_on_ne_migrate env zctx abs d b v w dir st
          (List.mem_append_left _ hst) (hstc.trans hc)
    · exact plan87_on_ne_migrate env zctx abs d b v w dir st
        (List.mem_append_right _ hst) (hstc.trans hc)
  · intro e he
    rcases follows_result h with h1 | ⟨ev, hev, h1⟩
    · rw [he] at h1
      exact Option.noConfusion h1
    · exact ⟨ev, hev, h1.trans he⟩
  · intro hG hT hPrep hMod
    rw [plan_eq_migrate env zctx abs d b ⟨hG, hT⟩] at h
    rcases follows_reach h with ⟨tr1, tr2, cur1, e1, e2, e3⟩ | ⟨pre, ev, e, e1, e2, -, e4⟩
    · obtain ⟨ev, post, rfl, hev, hpost⟩ := follows_cons_inv e3
      have hpre : ∀ x ∈ tr1, ∃ t ∈ plan57 zctx abs, t.call = x.call := by
        intro x hx
        have := List.mem_map_of_mem Event.call hx
        rw [e2] at this
        exact List.mem_map.1 this
      refine ⟨tr1, ev, post, e1, hev, ?_, ?_, ?_⟩
      · rw [← plan57_calls]
        exact e2
      · intro x hx hc
        rcases List.mem_append.1 hx with hx | hx
        · obtain ⟨t, ht, htc⟩ := hpre x hx
          exact h57 _ _ _ t ht (htc.trans hc)
        · obtain ⟨st, hst, hstc⟩ :=
            List.mem_map.1 (hpost.subset (List.mem_map_of_mem Event.call hx))
          exact plan87_on_ne_migrate env zctx abs d b _ _ _ st hst (hstc.trans hc)
      · intro x hx src multiple hc
        obtain ⟨t, ht, htc⟩ := hpre x hx
        revert htc
        revert t
        simp only [plan57]
        split_ifs <;> simp [hc]
    · exfalso
      rw [e1] at hPrep hMod e4
      have notlast : ∀ c : Call, (⟨c, none⟩ : Event ε) ∈ pre ++ [ev] →
          (⟨c, none⟩ : Event ε) ∈ pre := by
        intro c hx
        rcases List.mem_append.1 hx with hx | hx
        · exact hx
        · rw [List.mem_singleton] at hx
          rw [← hx] at e2
          exact Option.noConfusion e2
      rw [plan57_calls] at e4
      by_cases hM : zctx.ModuleName ≠ ""
      · have h4 : pre.map Event.call ++ [ev.call]
            <+: [Call.filepathAbs zctx.Output, Call.MkdirIfNotExist abs, Call.Prepare]
              ++ [Call.execRun ("go mod init " ++ zctx.ModuleName) abs] := by
          simpa [hM] using e4
        have := not_mem_of_prefix_concat h4
          (List.mem_map_of_mem Event.call (notlast _ (hMod hM)))
        simp at this
      · have h4 : pre.map Event.call ++ [ev.call]
            <+: [Call.filepathAbs zctx.Output, Call.MkdirIfNotExist abs] ++ [Call.Prepare] := by
          simpa [hM] using e4
        have := not_mem_of_prefix_concat h4 (List.mem_map_of_mem Event.call (notlast _ hPrep))
        simp at this

/-- A run with only the tool version set and a run with both versions set. -/
theorem C6_version_migration_witness :
    (∀ ev ∈ (runGenerate (scriptEnv noFailure false) ⟨()⟩ zctxToolVersionOnly ()).trace,
      ∀ v w dir, ev.call
        ≠ .execRun ("goctls migrate --zero-version " ++ v ++ " --tool-version " ++ w) dir) ∧
    ∃ pre ev post, (runGenerate (scriptEnv noFailure false) ⟨()⟩ zctxVersions ()).trace
        = pre ++ ev :: post ∧
      ev.call = .execRun ("goctls migrate --zero-version " ++ zctxVersions.GoZeroVersion
        ++ " --tool-version " ++ zctxVersions.ToolVersion)
        ((scriptEnv noFailure false).filepathAbs zctxVersions.Output ()).1.1 ∧
      calls pre = [.filepathAbs zctxVersions.Output,
          .MkdirIfNotExist ((scriptEnv noFailure false).filepathAbs zctxVersions.Output ()).1.1,
          .Prepare]
        ++ (if zctxVersions.ModuleName ≠ "" then
            [.execRun ("go mod init " ++ zctxVersions.ModuleName)
              ((scriptEnv noFailure false).filepathAbs zctxVersions.Output ()).1.1] else []) ∧
      (∀ x ∈ pre ++ post, x.call ≠ .execRun ("goctls migrate --zero-version "
        ++ zctxVersions.GoZeroVersion ++ " --tool-version " ++ zctxVersions.ToolVersion)
        ((scriptEnv noFailure false).filepathAbs zctxVersions.Output ()).1.1) ∧
      (∀ x ∈ pre, ∀ src multiple, x.call ≠ .Parse src multiple) :=
  ⟨(C6_version_migration (scriptEnv noFailure false) ⟨()⟩ zctxToolVersionOnly ()).1
      (Or.inl rfl),
    (C6_version_migration (scriptEnv noFailure false) ⟨()⟩ zctxVersions ()).2.2
      (by decide) (by decide) (by decide) (fun hm => absurd rfl hm)⟩

/-- C7: `GenMakefile` is invoked only when `MakeFile` is set and `GenDockerfile` only
when `DockerFile` is set; with both flags off neither is invoked, and a run in which
every call succeeds returns no error. -/
theorem C7_build_files_gated (env : Env σ ε PC PR DC CF) (g : Generator CF)
    (zctx : ZRpcContext) (s : σ) :
    (∀ ev ∈ (runGenerate env g zctx s).trace, ev.call = .GenMakefile → zctx.MakeFile = true) ∧
    (∀ ev ∈ (runGenerate env g zctx s).trace,
      ev.call = .GenDockerfile → zctx.DockerFile = true) ∧
    (zctx.MakeFile = false → zctx.DockerFile = false →
      (∀ ev ∈ (runGenerate env g zctx s).trace,
        ev.call ≠ .GenMakefile ∧ ev.call ≠ .GenDockerfile) ∧
      ((∀ ev ∈ (runGenerate env g zctx s).trace, ev.err = none) →
        (runGenerate env g zctx s).val = none)) := by
  obtain ⟨d, b, -, h⟩ := follows_Generate env g zctx s
  generalize (env.filepathAbs zctx.Output s).1.1 = abs at h
  have hM : ∀ st ∈ plan env zctx abs d b, st.call = .GenMakefile → zctx.MakeFile = true := by
    rw [forall_mem_plan]
    refine ⟨?_, ?_, ?_, ?_, ?_, ?_, ?_, ?_⟩
    · simp only [plan57]; split_ifs <;> simp
    · simp only [plan79]; split_ifs <;> simp
    · simp [plan87]
    · simp [plan138]
    · simp only [plan140]; split_ifs with hm <;> simp [hm]
    · simp only [plan147]; split_ifs <;> simp
    · simp only [plan154]; split_ifs <;> simp
    · simp [plan191]
  have hD : ∀ st ∈ plan env zctx abs d b, st.call = .GenDockerfile → zctx.DockerFile = true := by
    rw [forall_mem_plan]
    refine ⟨?_, ?_, ?_, ?_, ?_, ?_, ?_, ?_⟩
    · simp only [plan57]; split_ifs <;> simp
    · simp only [plan79]; split_ifs <;> simp
    · simp [plan87]
    · simp [plan138]
    · simp only [plan140]; split_ifs <;> simp
    · simp only [plan147]; split_ifs with hd <;> simp [hd]
    · simp only [plan154]; split_ifs <;> simp
    · simp [plan191]
  have hM1 : ∀ ev ∈ (runGenerate env g zctx s).trace,
      ev.call = .GenMakefile → zctx.MakeFile = true := by
    intro ev hev hc
    obtain ⟨st, hst, hstc⟩ := List.mem_map.1 (follows_call_mem h hev)
    exact hM st hst (hstc.trans hc)
  have hD1 : ∀ ev ∈ (runGenerate env g zctx s).trace,
      ev.call = .GenDockerfile → zctx.DockerFile = true := by
    intro ev hev hc
    obtain ⟨st, hst, hstc⟩ := List.mem_map.1 (follows_call_mem h hev)
    exact hD st hst (hstc.trans hc)
  refine ⟨hM1, hD1, ?_⟩
  intro hm hd
  refine ⟨fun ev hev => ⟨fun hc => ?_, fun hc => ?_⟩, fun hok => ?_⟩
  · simp [hM1 ev hev hc] at hm
  · simp [hD1 ev hev hc] at hd
  · rcases follows_result h with h1 | ⟨ev, hev, h1⟩
    · exact h1
    · rw [← h1]
      exact hok ev hev

/-- A run with neither build file requested and every call succeeding. -/
theorem C7_build_files_gated_witness :
    (∀ ev ∈ (runGenerate (scriptEnv noFailure false) ⟨()⟩ zctxPlain ()).trace,
      ev.call ≠ .GenMakefile ∧ ev.call ≠ .GenDockerfile) ∧
    (runGenerate (scriptEnv noFailure false) ⟨()⟩ zctxPlain ()).val = none :=
  ⟨((C7_build_files_gated (scriptEnv noFailure false) ⟨()⟩ zctxPlain ()).2.2 rfl rfl).1,
    ((C7_build_files_gated (scriptEnv noFailure false) ⟨()⟩ zctxPlain ()).2.2 rfl rfl).2
      (by decide)⟩

/-- C8: `Generate` never overwrites an existing pagination template. For any
observation `content` of the world that no collaborator but `os.WriteFile` changes
(the bytes of `<abs>/ent/template/pagination.tmpl`), if the file exists before the run
and `pathx.FileExists` reports existing files, the contents after the run are the
contents before. In terms of calls: once `pathx.FileExists` has answered `true`
nothing is written; the only write `Generate` ever makes is that of the constant
`ent.PaginationTpl` to the template path with `os.ModePerm`, after the check answered
`false`; and when the check answers `false` that write is made. -/
theorem C8_pagination_template (env : Env σ ε PC PR DC CF) (g : Generator CF)
    (zctx : ZRpcContext) (s : σ) :
    (∀ content : σ → Option String, Frame env content →
      (∀ s1, content s1 ≠ none → (env.FileExists (env.filepathJoin
        [(env.filepathAbs zctx.Output s).1.1, "ent", "template", "pagination.tmpl"]) s1).1
          = true) →
      content s ≠ none → content (runGenerate env g zctx s).st = content s) ∧
    (Call.FileExists (env.filepathJoin
        [(env.filepathAbs zctx.Output s).1.1, "ent", "template", "pagination.tmpl"]) true
        ∈ calls (runGenerate env g zctx s).trace →
      ∀ ev ∈ (runGenerate env g zctx s).trace, ∀ path c m, ev.call ≠ .WriteFile path c m) ∧
    (∀ ev ∈ (runGenerate env g zctx s).trace, ∀ path c m, ev.call = .WriteFile path c m →
      zctx.Ent = true ∧
      path = env.filepathJoin
        [(env.filepathAbs zctx.Output s).1.1, "ent", "template", "pagination.tmpl"] ∧
      c = env.PaginationTpl ∧ m = ModePerm ∧
      Call.FileExists path false ∈ calls (runGenerate env g zctx s).trace) ∧
    (⟨.FileExists (env.filepathJoin
        [(env.filepathAbs zctx.Output s).1.1, "ent", "template", "pagination.tmpl"]) false,
        none⟩ ∈ (runGenerate env g zctx s).trace →
      Call.WriteFile (env.filepathJoin
        [(env.filepathAbs zctx.Output s).1.1, "ent", "template", "pagination.tmpl"])
        env.PaginationTpl ModePerm ∈ calls (runGenerate env g zctx s).trace) := by
  refine ⟨?_, ?_⟩
  · intro content hf hsound h0
    exact frame_Generate hf g zctx s (fun s1 h1 => hsound s1 (h1 ▸ h0))
  obtain ⟨d, b, -, h⟩ := follows_Generate env g zctx s
  generalize (env.filepathAbs zctx.Output s).1.1 = abs at h ⊢
  have hmem : ∀ c ∈ calls (runGenerate env g zctx s).trace,
      ∃ st ∈ plan env zctx abs d b, st.call = c := fun c hc =>
    List.mem_map.1 ((calls_isPrefix_plan h).subset hc)
  have hfront : ∀ (path : String) (r : Bool),
      ∀ c ∈ (planFront zctx abs ++ plan138 :: (plan140 zctx ++ plan147 zctx)).map Step.call,
        c ≠ .FileExists path r ∧ ∀ p1 c1 m1, c ≠ .WriteFile p1 c1 m1 := by
    intro path r
    apply before_ent_calls
    · simp only [plan57]; split_ifs <;> simp
    · simp only [plan79]; split_ifs <;> simp
    · simp [plan87]
    · simp [plan138]
    · simp only [plan140]; split_ifs <;> simp
    · simp only [plan147]; split_ifs <;> simp
  refine ⟨?_, ?_, ?_⟩
  · intro hex ev hev path c m hc
    obtain ⟨st, hst, hstc⟩ := hmem _ hex
    obtain ⟨st1, hst1, hstc1⟩ := hmem _ (List.mem_map_of_mem Event.call hev)
    have h1 := (plan_fileExists env zctx abs d b _ _ st hst hstc).2
    have h2 := (plan_write_only env zctx abs d b path c m st1 hst1 (hstc1.trans hc)).2.1
    rw [h1] at h2
    exact Bool.noConfusion h2
  · intro ev hev path c m hc
    obtain ⟨st1, hst1, hstc1⟩ := hmem _ (List.mem_map_of_mem Event.call hev)
    obtain ⟨hEnt, hb, hp, hcn, hm⟩ :=
      plan_write_only env zctx abs d b path c m st1 hst1 (hstc1.trans hc)
    subst hb
    refine ⟨hEnt, hp, hcn, hm, ?_⟩
    have hp1 := calls_isPrefix_plan h
    rw [plan_eq_around_write env zctx abs d hEnt, List.map_append, List.map_cons] at hp1
    have hW : Call.WriteFile path c m ∈ calls (runGenerate env g zctx s).trace :=
      hc ▸ List.mem_map_of_mem Event.call hev
    rw [hp, hcn, hm] at hW
    have := prefix_of_mem hp1 hW (by
      intro hx
      rw [List.map_append] at hx
      rcases List.mem_append.1 hx with hx | hx
      · exact (hfront "" false _ hx).2 _ _ _ rfl
      · simp at hx)
    rw [hp]
    exact this.subset (by simp)
  · intro hFE
    obtain ⟨st, hst, hstc⟩ := hmem _ (List.mem_map_of_mem Event.call hFE)
    obtain ⟨hEnt, hb⟩ := plan_fileExists env zctx abs d b _ _ st hst hstc
    subst hb
    rw [plan_eq_around_write env zctx abs d hEnt] at h
    rcases follows_reach h with ⟨tr1, tr2, cur1, e1, -, e3⟩ | ⟨pre, ev, e, e1, e2, -, e4⟩
    · obtain ⟨ev, post, rfl, hev, -⟩ := follows_cons_inv e3
      rw [e1]
      simp only [calls, List.map_append, List.map_cons, List.mem_append, List.mem_cons]
      exact Or.inr (Or.inl hev.symm)
    · exfalso
      rw [e1] at hFE e4
      have hin : (⟨.FileExists (env.filepathJoin [abs, "ent", "template", "pagination.tmpl"])
          false, none⟩ : Event ε) ∈ pre := by
        rcases List.mem_append.1 hFE with hx | hx
        · exact hx
        · rw [List.mem_singleton] at hx
          rw [← hx] at e2
          exact Option.noConfusion e2
      have h4 : pre.map Event.call ++ [ev.call]
          <+: ((planFront zctx abs ++ plan138 :: (plan140 zctx ++ plan147 zctx)).map Step.call
            ++ [Call.execRun ("go run -mod=mod entgo.io/ent/cmd/ent init "
                  ++ env.serviceNameCamel d) abs,
                Call.execRun "go mod tidy" abs,
                Call.execRun "go run -mod=mod entgo.io/ent/cmd/ent generate ./ent/schema" abs,
                Call.MkdirIfNotExist (env.filepathJoin [abs, "ent", "template"])])
            ++ [Call.FileExists (env.filepathJoin [abs, "ent", "template", "pagination.tmpl"])
                  false] := by
        simpa [List.append_assoc] using e4
      have := not_mem_of_prefix_concat h4 (List.mem_map_of_mem Event.call hin)
      rcases List.mem_append.1 this with hx | hx
      · exact (hfront _ _ _ hx).1 rfl
      · simp at hx

/-- A run over a hand-written template, which it keeps, and a run without one, which writes it. -/
theorem C8_pagination_template_witness :
    tplContent (runGenerate fsEnv ⟨()⟩ zctxEnt [(tplPath, "hand-written")]).st
      = tplContent [(tplPath, "hand-written")] ∧
    (∀ ev ∈ (runGenerate fsEnv ⟨()⟩ zctxEnt [(tplPath, "hand-written")]).trace,
      ∀ path c m, ev.call ≠ .WriteFile path c m) ∧
    Call.WriteFile tplPath "TPL" ModePerm ∈ calls (runGenerate fsEnv ⟨()⟩ zctxEnt []).trace :=
  ⟨(C8_pagination_template fsEnv ⟨()⟩ zctxEnt [(tplPath, "hand-written")]).1 tplContent
      frame_fsEnv (fun _ h1 => Option.isSome_iff_ne_none.2 h1) (by decide),
    (C8_pagination_template fsEnv ⟨()⟩ zctxEnt [(tplPath, "hand-written")]).2.1 (by decide),
    (C8_pagination_template fsEnv ⟨()⟩ zctxEnt []).2.2.2 (by decide)⟩

/-- C9: with `Ent` set, every call succeeding and the pagination template reported
absent, the calls of the run are the steps before the stages, the eight core stages,
the requested Makefile and Dockerfile stages, and then, in this order: `ent init` with
the camel-case service name of the directory context this run built at line 98,
`go mod tidy`, `ent generate ./ent/schema`, creation of the `ent/template` directory,
the existence check, the write of `pagination.tmpl`, `make gen-rpc`, and the completion
signal; every process runs in the resolved output directory. With `Ent` unset the calls
of any run are a prefix of the same sequence without the ent calls. -/
theorem C9_ent_sequence (env : Env σ ε PC PR DC CF) (g : Generator CF) (zctx : ZRpcContext)
    (s : σ) :
    (zctx.Ent = true →
      (∀ ev ∈ (runGenerate env g zctx s).trace, ev.err = none) →
      (∀ ev ∈ (runGenerate env g zctx s).trace, ev.call ≠ .FileExists
        (env.filepathJoin [(env.filepathAbs zctx.Output s).1.1, "ent", "template",
          "pagination.tmpl"]) true) →
      calls (runGenerate env g zctx s).trace
          = [.filepathAbs zctx.Output, .MkdirIfNotExist (env.filepathAbs zctx.Output s).1.1,
              .Prepare]
            ++ (if zctx.ModuleName ≠ "" then
                [.execRun ("go mod init " ++ zctx.ModuleName)
                  (env.filepathAbs zctx.Output s).1.1] else [])
            ++ (if zctx.GoZeroVersion ≠ "" ∧ zctx.ToolVersion ≠ "" then
                [.execRun ("goctls migrate --zero-version " ++ zctx.GoZeroVersion
                  ++ " --tool-version " ++ zctx.ToolVersion)
                  (env.filepathAbs zctx.Output s).1.1] else [])
            ++ [.ctxPrepare (env.filepathAbs zctx.Output s).1.1,
                .Parse zctx.Src zctx.Multiple, .mkdir]
            ++ coreStages
            ++ (if zctx.MakeFile then [.GenMakefile] else [])
            ++ (if zctx.DockerFile then [.GenDockerfile] else [])
            ++ [.execRun ("go run -mod=mod entgo.io/ent/cmd/ent init "
                  ++ env.serviceNameCamel (builtDirCtx env g zctx s))
                  (env.filepathAbs zctx.Output s).1.1,
                .execRun "go mod tidy" (env.filepathAbs zctx.Output s).1.1,
                .execRun "go run -mod=mod entgo.io/ent/cmd/ent generate ./ent/schema"
                  (env.filepathAbs zctx.Output s).1.1,
                .MkdirIfNotExist
                  (env.filepathJoin [(env.filepathAbs zctx.Output s).1.1, "ent", "template"]),
                .FileExists (env.filepathJoin [(env.filepathAbs zctx.Output s).1.1, "ent",
                  "template", "pagination.tmpl"]) false,
                .WriteFile (env.filepathJoin [(env.filepathAbs zctx.Output s).1.1, "ent",
                  "template", "pagination.tmpl"]) env.PaginationTpl ModePerm,
                .execRun "make gen-rpc" (env.filepathAbs zctx.Output s).1.1,
                .MarkDone]) ∧
    (zctx.Ent = false →
      calls (runGenerate env g zctx s).trace
        <+: [.filepathAbs zctx.Output, .MkdirIfNotExist (env.filepathAbs zctx.Output s).1.1,
              .Prepare]
            ++ (if zctx.ModuleName ≠ "" then
                [.execRun ("go mod init " ++ zctx.ModuleName)
                  (env.filepathAbs zctx.Output s).1.1] else [])
            ++ (if zctx.GoZeroVersion ≠ "" ∧ zctx.ToolVersion ≠ "" then
                [.execRun ("goctls migrate --zero-version " ++ zctx.GoZeroVersion
                  ++ " --tool-version " ++ zctx.ToolVersion)
                  (env.filepathAbs zctx.Output s).1.1] else [])
            ++ [.ctxPrepare (env.filepathAbs zctx.Output s).1.1,
                .Parse zctx.Src zctx.Multiple, .mkdir]
            ++ coreStages
            ++ (if zctx.MakeFile then [.GenMakefile] else [])
            ++ (if zctx.DockerFile then [.GenDockerfile] else [])
            ++ [.MarkDone]) := by
  obtain ⟨b, h⟩ := follows_Generate_built env g zctx s
  generalize builtDirCtx env g zctx s = d at h ⊢
  generalize (env.filepathAbs zctx.Output s).1.1 = abs at h ⊢
  constructor
  · intro hEnt hok habsent
    have hc := (follows_all_ok h hok).1
    cases b with
    | true =>
      exfalso
      have := fileExists_true_mem_plan env zctx abs d hEnt
      rw [← hc] at this
      obtain ⟨x, hx, hxc⟩ := List.mem_map.1 this
      exact habsent x hx hxc
    | false =>
      unfold calls
      rw [hc, plan_calls_ent env zctx abs d hEnt]
  · intro hEnt
    have := calls_isPrefix_plan h
    rwa [plan_calls_no_ent env zctx abs d b hEnt] at this

/-- A run with `Ent` set over `countingEnv`: `mkdir` is the sixth call, so the
directory context it returns carries the parsed source `a.proto` and the world `5`,
and `ent init` is run with the name made from both. -/
theorem C9_ent_sequence_witness :
    calls (runGenerate countingEnv ⟨()⟩ zctxEnt 0).trace
      = [.filepathAbs "out", .MkdirIfNotExist "/abs/out", .Prepare]
        ++ (if zctxEnt.ModuleName ≠ "" then
            [.execRun ("go mod init " ++ zctxEnt.ModuleName) "/abs/out"] else [])
        ++ (if zctxEnt.GoZeroVersion ≠ "" ∧ zctxEnt.ToolVersion ≠ "" then
            [.execRun ("goctls migrate --zero-version " ++ zctxEnt.GoZeroVersion
              ++ " --tool-version " ++ zctxEnt.ToolVersion) "/abs/out"] else [])
        ++ [.ctxPrepare "/abs/out", .Parse "a.proto" false, .mkdir]
        ++ coreStages
        ++ (if zctxEnt.MakeFile then [.GenMakefile] else [])
        ++ (if zctxEnt.DockerFile then [.GenDockerfile] else [])
        ++ [.execRun "go run -mod=mod entgo.io/ent/cmd/ent init a.proto+++++" "/abs/out",
            .execRun "go mod tidy" "/abs/out",
            .execRun "go run -mod=mod entgo.io/ent/cmd/ent generate ./ent/schema" "/abs/out",
            .MkdirIfNotExist "/abs/out/ent/template",
            .FileExists "/abs/out/ent/template/pagination.tmpl" false,
            .WriteFile "/abs/out/ent/template/pagination.tmpl" "TPL" ModePerm,
            .execRun "make gen-rpc" "/abs/out",
            .MarkDone] :=
  (C9_ent_sequence countingEnv ⟨()⟩ zctxEnt 0).1 rfl (by decide) (by decide)

/-- C10: when the call stage fails with `e` and every other call of the run succeeds,
`Generate` returns `e` exactly when neither `MakeFile` nor `DockerFile` is set (whatever
`Ent` is); when one of them is set it returns no error. The completion signal is
emitted in both cases. -/
theorem C10_call_stage_error_fate (env : Env σ ε PC PR DC CF) (g : Generator CF)
    (zctx : ZRpcContext) (s : σ) (e : ε)
    (hcall : ⟨.GenCall, some e⟩ ∈ (runGenerate env g zctx s).trace)
    (hok : ∀ ev ∈ (runGenerate env g zctx s).trace, ev.call ≠ .GenCall → ev.err = none) :
    ((runGenerate env g zctx s).val = some e ↔
      (zctx.MakeFile = false ∧ zctx.DockerFile = false)) ∧
    ((zctx.MakeFile = true ∨ zctx.DockerFile = true) →
      (runGenerate env g zctx s).val = none) ∧
    ⟨.MarkDone, none⟩ ∈ (runGenerate env g zctx s).trace := by
  obtain ⟨d, b, -, h⟩ := follows_Generate env g zctx s
  generalize (env.filepathAbs zctx.Output s).1.1 = abs at h
  obtain ⟨tr1, ev, tr2, htr, h1, hev, h2⟩ :=
    follows_split (A := planFront zctx abs) h (planFront_calls zctx abs) hok
  rw [htr] at hcall hok
  have hback : ∀ x ∈ tr2, x.call ≠ .GenCall := by
    intro x hx hc
    obtain ⟨st, hst, hstc⟩ := List.mem_map.1 (follows_call_mem h2 hx)
    exact planBack_calls env zctx abs d b st hst (hstc.trans hc)
  have hfront : ∀ x ∈ tr1, x.call ≠ .GenCall := by
    intro x hx hc
    have : x.call ∈ (planFront zctx abs).map Step.call := h1 ▸ List.mem_map_of_mem Event.call hx
    obtain ⟨st, hst, hstc⟩ := List.mem_map.1 this
    exact planFront_calls zctx abs st hst (hstc.trans hc)
  have heve : ev.err = some e := by
    rcases List.mem_append.1 hcall with hx | hx
    · exact absurd rfl (hfront _ hx)
    · rcases List.mem_cons.1 hx with hx | hx
      · rw [← hx]
      · exact absurd rfl (hback _ hx)
  have hok2 : ∀ x ∈ tr2, x.err = none := fun x hx =>
    hok x (List.mem_append_right _ (List.mem_cons_of_mem _ hx)) (hback x hx)
  obtain ⟨hc2, hr⟩ := follows_all_ok h2 hok2
  rw [planBack_any_isOuter, heve] at hr
  have hdone : ⟨.MarkDone, none⟩ ∈ tr1 ++ ev :: tr2 := by
    have : Call.MarkDone ∈ tr2.map Event.call := by
      rw [hc2]
      simp [planBack, plan191]
    obtain ⟨x, hx, hxc⟩ := List.mem_map.1 this
    have hx0 := hok2 x hx
    have : x = ⟨.MarkDone, none⟩ := by
      cases x
      simp_all
    exact this ▸ List.mem_append_right _ (List.mem_cons_of_mem _ hx)
  rw [htr]
  refine ⟨?_, ?_, hdone⟩
  · rw [hr]
    cases zctx.MakeFile <;> cases zctx.DockerFile <;> simp
  · rw [hr]
    cases zctx.MakeFile <;> cases zctx.DockerFile <;> simp

/-- A run with `Ent` set in which only the call stage fails. -/
theorem C10_call_stage_error_fate_witness :
    ((runGenerate (scriptEnv callFails false) ⟨()⟩ zctxEnt ()).val
        = some "call failed" ↔
      (zctxEnt.MakeFile = false ∧
        zctxEnt.DockerFile = false)) ∧
    ((zctxEnt.MakeFile = true ∨
        zctxEnt.DockerFile = true) →
      (runGenerate (scriptEnv callFails false) ⟨()⟩ zctxEnt ()).val
        = none) ∧
    ⟨.MarkDone, none⟩ ∈
      (runGenerate (scriptEnv callFails false) ⟨()⟩ zctxEnt ()).trace :=
  C10_call_stage_error_fate (scriptEnv callFails false) ⟨()⟩ zctxEnt ()
    "call failed" (by decide) (by decide)

end generator
